import Mathlib

/-! Park/unpark, Parker and the Native Memory Tracking level: a shallow embedding.

Sources embedded here:

* `src/hotspot/os/solaris/os_solaris.cpp`: `compute_abstime`, `os::PlatformEvent::park()`,
  `os::PlatformEvent::park(jlong)`, `os::PlatformEvent::unpark()`, `unpackTime`, `Parker::park`;
  `recoverable_mmap_error`, `os::Solaris::commit_memory_impl` (both overloads),
  `os::pd_commit_memory`, `os::Solaris::page_size_for_alignment`,
  `os::Solaris::setup_large_pages`, `os::numa_make_global`, `os::Solaris::mmap_chunk`,
  `os::Solaris::anon_mmap`, `os::pd_reserve_memory`, `os::pd_attempt_reserve_memory_at`,
  `os::pd_release_memory`, `os::pd_unmap_memory`; `scale_to_lwp_priority`,
  `set_lwp_class_and_priority`, `os::set_native_priority` and the priority replay of
  `thread_native_entry`; `getTimeNanos`; `os::create_thread`;
* `src/hotspot/share/services/memTracker.cpp`: `MemTracker::init_tracking_level`,
  `MemTracker::verify_nmt_option`, `MemTracker::shutdown`, `MemTracker::transition_to`,
  `MemTracker::final_report`.

Conventions.

* A function of the source becomes a function on an explicit state record. Calls into the
  threading library (`mutex_lock`, `cond_wait`, ...) and into other subsystems are appended
  to a trace, in program order.
* What the rest of the process does while a function runs is an explicit argument: the
  status a condition wait returns, and whether a concurrent `unpark()` stored `1` into the
  counter before the counter is read again.
* `assert` and `assert_status` are compiled only into debug builds; `guarantee` is always
  checked. `Build.debug` selects the build.
* `mutex_lock`, `mutex_unlock` and `cond_signal` are taken to return status `0`.
* The kernel is an explicit argument too: its answer to each `mmap` and `priocntl` call,
  and a model of the address space on which `mmap` and `munmap` act.
-/

namespace Solaris

/-! ## Build flags and the threading-library vocabulary -/

/-- Build and VM flags read by the embedded functions: `debug` is true when `ASSERT` is
defined (so `assert`/`assert_status` are checked); `FilterSpuriousWakeups` is the VM flag
tested in `os::PlatformEvent::park(jlong)`. -/
structure Build where
  debug : Bool
  FilterSpuriousWakeups : Bool
deriving DecidableEq, Repr

/-- Status codes returned by `cond_wait` / `cond_timedwait`. `other` stands for any errno
different from `EINTR`, `ETIME` and `ETIMEDOUT`. -/
inductive Status where
  | ok
  | EINTR
  | ETIME
  | ETIMEDOUT
  | other (code : Nat)
deriving DecidableEq, Repr

/-- Return values of `os::PlatformEvent::park(jlong)` and `os::set_native_priority`. -/
inductive OSReturn where
  | OS_OK
  | OS_TIMEOUT
  | OS_ERR
deriving DecidableEq, Repr

/-- Seconds / microseconds pair filled in by `gettimeofday`. -/
structure Timeval where
  tv_sec : Int
  tv_usec : Int
deriving DecidableEq, Repr

/-- Seconds / nanoseconds pair handed to `cond_timedwait`. -/
structure Timespec where
  tv_sec : Int
  tv_nsec : Int
deriving DecidableEq, Repr

/-- Two's-complement wrap of a mathematical integer into the signed 64-bit range, applied
wherever the source computes in `jlong`, `long` or `time_t`. -/
def wrap64 (x : Int) : Int := (x + 2 ^ 63) % 2 ^ 64 - 2 ^ 63

/-- Calls into the threading library, recorded in program order. -/
inductive Ev where
  | mutex_lock
  | mutex_trylock
  | mutex_unlock
  | cond_wait
  | cond_timedwait (abstime : Timespec)
  | cond_signal
  | fence
  | ThreadBlockInVM_enter
  | ThreadBlockInVM_leave
  | OSThreadWaitState_enter
  | OSThreadWaitState_leave
deriving DecidableEq, Repr

/-- What one return from a condition wait looks like to the waiting thread: the status the
wait returned, and whether a concurrent `unpark()` executed `Atomic::xchg(&_Event, 1)` before
the waiter reads `_Event` again. -/
structure Wake where
  status : Status
  unparked : Bool
deriving DecidableEq, Repr

/-- The surroundings of one `park` call: the clock reading `gettimeofday` returns, whether
an `unpark()` lands between the decrement of `_Event` and the first loop test, and the
successive returns of the condition wait. -/
structure ParkEnv where
  now : Timeval
  early : Bool
  wakes : List Wake
deriving DecidableEq, Repr

/-- How a call ends: it returns; or it is still inside a condition wait after all supplied
wake-ups were consumed; or a failed `assert`/`guarantee` aborted the VM. -/
inductive Outcome (σ α : Type) where
  | returned (val : α) (s : σ) (trace : List Ev)
  | blocked (s : σ) (trace : List Ev)
  | aborted (msg : String) (s : σ) (trace : List Ev)
deriving DecidableEq, Repr

/-- True for the two ways `cond_timedwait` reports an expired deadline. -/
def Status.isTimeout : Status → Bool
  | .ETIME => true
  | .ETIMEDOUT => true
  | _ => false

/-! ## `os::PlatformEvent` -/

/-- The two data members of `os::PlatformEvent` that `park`/`unpark` read and write. -/
structure PlatformEvent where
  _Event : Int
  _nParked : Int
deriving DecidableEq, Repr

/-- The store a concurrent `unpark()` performs on the counter. -/
def applyUnpark (unparked : Bool) (event : Int) : Int :=
  if unparked then 1 else event

/-- The function `compute_abstime(abstime, millis)` with the clock reading `now`. -/
def compute_abstime (now : Timeval) (millis : Int) : Timespec :=
  let millis := if millis < 0 then 0 else millis
  let seconds := Int.tdiv millis 1000
  let max_wait_period : Int := 50000000
  let millis := Int.tmod millis 1000
  let seconds := if seconds > max_wait_period then max_wait_period else seconds
  let tv_sec := wrap64 (now.tv_sec + seconds)
  let usec := wrap64 (now.tv_usec + wrap64 (millis * 1000))
  if usec ≥ 1000000 then
    { tv_sec := wrap64 (tv_sec + 1), tv_nsec := wrap64 (wrap64 (usec - 1000000) * 1000) }
  else
    { tv_sec := tv_sec, tv_nsec := wrap64 (usec * 1000) }

/-- Result of running a wait loop: it was left with the counter at `event`; or the thread
is still inside the wait; or a debug-build `assert_status` failed. -/
inductive Loop where
  | exited (event : Int) (trace : List Ev)
  | waiting (event : Int) (trace : List Ev)
  | failed (event : Int) (trace : List Ev)
deriving DecidableEq, Repr

/-- The loop `while (_Event < 0) { status = cond_wait(...); if (status == ETIME) status =
EINTR; assert_status(status == 0 || status == EINTR, ...); }` of `park()`. -/
def waitLoop (cfg : Build) : List Wake → Int → List Ev → Loop
  | [], event, trace =>
    if event < 0 then .waiting event (trace ++ [.cond_wait]) else .exited event trace
  | w :: rest, event, trace =>
    if event < 0 then
      let status := if w.status = .ETIME then Status.EINTR else w.status
      if cfg.debug && !(status = .ok || status = .EINTR) then
        .failed (applyUnpark w.unparked event) (trace ++ [.cond_wait])
      else
        waitLoop cfg rest (applyUnpark w.unparked event) (trace ++ [.cond_wait])
    else .exited event trace

/-- The loop of `park(jlong)`:
`while (_Event < 0) { status = cond_timedwait(...); assert_status(...);
if (!FilterSpuriousWakeups) break; if (status == ETIME || status == ETIMEDOUT) break; }`. -/
def timedWaitLoop (cfg : Build) (abst : Timespec) : List Wake → Int → List Ev → Loop
  | [], event, trace =>
    if event < 0 then .waiting event (trace ++ [.cond_timedwait abst]) else .exited event trace
  | w :: rest, event, trace =>
    if event < 0 then
      if cfg.debug &&
          !(w.status = .ok || w.status = .EINTR || w.status = .ETIME || w.status = .ETIMEDOUT) then
        .failed (applyUnpark w.unparked event) (trace ++ [.cond_timedwait abst])
      else if !cfg.FilterSpuriousWakeups then
        .exited (applyUnpark w.unparked event) (trace ++ [.cond_timedwait abst])
      else if w.status = .ETIME || w.status = .ETIMEDOUT then
        .exited (applyUnpark w.unparked event) (trace ++ [.cond_timedwait abst])
      else
        timedWaitLoop cfg abst rest (applyUnpark w.unparked event) (trace ++ [.cond_timedwait abst])
    else .exited event trace

namespace PlatformEvent

/-- The function `os::PlatformEvent::park()`. The `cmpxchg` retry loop is one atomic fetch-and-decrement:
`v` is the value it saw. -/
def park (cfg : Build) (env : ParkEnv) (s : PlatformEvent) : Outcome PlatformEvent Unit :=
  if cfg.debug && s._nParked != 0 then .aborted "invariant" s []
  else
    let v := s._Event
    let s1 : PlatformEvent := { s with _Event := v - 1 }
    if v < 0 then .aborted "invariant" s1 []
    else if v = 0 then
      if s1._nParked != 0 then .aborted "invariant" s1 [.mutex_lock]
      else
        let n := s1._nParked + 1
        match waitLoop cfg env.wakes (applyUnpark env.early s1._Event) [.mutex_lock] with
        | .exited _ trace =>
          .returned () { _Event := 0, _nParked := n - 1 } (trace ++ [.mutex_unlock, .fence])
        | .waiting event trace => .blocked { _Event := event, _nParked := n } trace
        | .failed event trace => .aborted "cond_wait" { _Event := event, _nParked := n } trace
    else .returned () s1 []

/-- The function `os::PlatformEvent::park(jlong millis)`. -/
def park_millis (cfg : Build) (env : ParkEnv) (millis : Int) (s : PlatformEvent) :
    Outcome PlatformEvent OSReturn :=
  if s._nParked != 0 then .aborted "invariant" s []
  else
    let v := s._Event
    let s1 : PlatformEvent := { s with _Event := v - 1 }
    if v < 0 then .aborted "invariant" s1 []
    else if v != 0 then .returned .OS_OK s1 []
    else
      let abst := compute_abstime env.now millis
      if s1._nParked != 0 then .aborted "invariant" s1 [.mutex_lock]
      else
        let n := s1._nParked + 1
        match timedWaitLoop cfg abst env.wakes (applyUnpark env.early s1._Event) [.mutex_lock] with
        | .exited event trace =>
          let ret := if event ≥ 0 then OSReturn.OS_OK else OSReturn.OS_TIMEOUT
          .returned ret { _Event := 0, _nParked := n - 1 } (trace ++ [.mutex_unlock, .fence])
        | .waiting event trace => .blocked { _Event := event, _nParked := n } trace
        | .failed event trace =>
          .aborted "cond_timedwait" { _Event := event, _nParked := n } trace

/-- The function `os::PlatformEvent::unpark()`. -/
def unpark (s : PlatformEvent) : Outcome PlatformEvent Unit :=
  let old := s._Event
  let s1 : PlatformEvent := { s with _Event := 1 }
  if old ≥ 0 then .returned () s1 []
  else
    let AnyWaiters := s1._nParked
    if !(AnyWaiters = 0 || AnyWaiters = 1) then
      .aborted "invariant" s1 [.mutex_lock, .mutex_unlock]
    else if AnyWaiters != 0 then .returned () s1 [.mutex_lock, .mutex_unlock, .cond_signal]
    else .returned () s1 [.mutex_lock, .mutex_unlock]

end PlatformEvent

/-- A return from a condition wait that is neither a timeout nor accompanied by a
concurrent `unpark()`: status `0` or `EINTR`, counter untouched. -/
def Wake.spurious (w : Wake) : Prop :=
  (w.status = .ok ∨ w.status = .EINTR) ∧ w.unparked = false

instance (w : Wake) : Decidable w.spurious := by
  unfold Wake.spurious; infer_instance

/-! ## `Parker` -/

/-- The constant `MAX_SECS` (`#define MAX_SECS 100000000`). -/
def MAX_SECS : Int := 100000000

/-- Nanoseconds in a second (`NANOSECS_PER_SEC`). -/
def NANOSECS_PER_SEC : Int := 1000000000

/-- Nanoseconds in a millisecond (`NANOSECS_PER_MILLISEC`). -/
def NANOSECS_PER_MILLISEC : Int := 1000000

/-- The function `unpackTime(absTime, isAbsolute, time)` with the clock reading `now`. -/
def unpackTime (now : Timeval) (isAbsolute : Bool) (time : Int) : Timespec :=
  let max_secs := wrap64 (now.tv_sec + MAX_SECS)
  if isAbsolute then
    let secs := Int.tdiv time 1000
    { tv_sec := if secs > max_secs then max_secs else secs,
      tv_nsec := wrap64 (Int.tmod time 1000 * NANOSECS_PER_MILLISEC) }
  else
    let secs := Int.tdiv time NANOSECS_PER_SEC
    if secs ≥ MAX_SECS then
      { tv_sec := max_secs, tv_nsec := 0 }
    else
      let tv_sec := wrap64 (now.tv_sec + secs)
      let tv_nsec := wrap64 (Int.tmod time NANOSECS_PER_SEC + wrap64 (now.tv_usec * 1000))
      if tv_nsec ≥ NANOSECS_PER_SEC then
        { tv_sec := wrap64 (tv_sec + 1), tv_nsec := wrap64 (tv_nsec - NANOSECS_PER_SEC) }
      else
        { tv_sec := tv_sec, tv_nsec := tv_nsec }

/-- The four assertions that close `unpackTime`. -/
def unpackTime_asserts (now : Timeval) (absTime : Timespec) : Bool :=
  decide (absTime.tv_sec ≥ 0) && decide (absTime.tv_sec ≤ wrap64 (now.tv_sec + MAX_SECS)) &&
    decide (absTime.tv_nsec ≥ 0) && decide (absTime.tv_nsec < NANOSECS_PER_SEC)

/-- The permit counter of a `Parker`. -/
structure Parker where
  _counter : Int
deriving DecidableEq, Repr

/-- The surroundings of one `Parker::park` call: the interrupt flag of the calling thread,
the clock reading, whether `mutex_trylock` acquires the mutex, whether a concurrent
`Parker::unpark` stored a permit before the locked test of `_counter`, and the status the
condition wait returns (`none`: the wait has not returned). -/
structure ParkerEnv where
  interrupted : Bool
  now : Timeval
  acquired : Bool
  permit : Bool
  wake : Option Status
deriving DecidableEq, Repr

namespace Parker

/-- The function `Parker::park(bool isAbsolute, jlong time)`. -/
def park (cfg : Build) (env : ParkerEnv) (isAbsolute : Bool) (time : Int) (p : Parker) :
    Outcome Parker Unit :=
  let old := p._counter
  let p0 : Parker := { _counter := 0 }
  if old > 0 then .returned () p0 []
  else if env.interrupted then .returned () p0 []
  else if time < 0 || (isAbsolute && time == 0) then .returned () p0 []
  else
    let absTime := unpackTime env.now isAbsolute time
    if cfg.debug && decide (time > 0) && !unpackTime_asserts env.now absTime then
      .aborted "unpackTime" p0 []
    else
      let p1 : Parker := { _counter := applyUnpark env.permit p0._counter }
      if !env.acquired then
        .returned () p1 [.ThreadBlockInVM_enter, .mutex_trylock, .ThreadBlockInVM_leave]
      else if p1._counter > 0 then
        .returned () p0
          [.ThreadBlockInVM_enter, .mutex_trylock, .mutex_unlock, .fence, .ThreadBlockInVM_leave]
      else
        let wait : Ev := if time = 0 then .cond_wait else .cond_timedwait absTime
        let trace : List Ev :=
          [.ThreadBlockInVM_enter, .mutex_trylock, .OSThreadWaitState_enter, wait]
        match env.wake with
        | none => .blocked p1 trace
        | some status =>
          if cfg.debug &&
              !(status = .ok || status = .EINTR || status = .ETIME || status = .ETIMEDOUT) then
            .aborted "cond_timedwait" p1 trace
          else
            .returned () p0
              (trace ++ [.mutex_unlock, .fence, .OSThreadWaitState_leave, .ThreadBlockInVM_leave])

end Parker

/-! ## `MemTracker`: the tracking level -/

/-- Modelled from the spec: the declaration of `NMT_TrackingLevel` is not among the sources;
the levels are the ordered enumeration `off < minimal < summary < detail`. (The source also
initialises `_tracking_level` with a sentinel `NMT_unknown` that `tracking_level()` resolves
before any level is compared; the levels compared here are the resolved ones.) -/
inductive NMT_TrackingLevel where
  | NMT_off
  | NMT_minimal
  | NMT_summary
  | NMT_detail
deriving DecidableEq, Repr

/-- Position of a level in the order `off < minimal < summary < detail`. -/
def NMT_TrackingLevel.toNat : NMT_TrackingLevel → Nat
  | .NMT_off => 0
  | .NMT_minimal => 1
  | .NMT_summary => 2
  | .NMT_detail => 3

/-- Calls `MemTracker` makes into other parts of the VM, recorded in program order. -/
inductive NmtCall where
  | fence
  | VirtualMemoryTracker_transition (current_level level : NMT_TrackingLevel)
  | MallocTracker_transition (current_level level : NMT_TrackingLevel)
  | ThreadStackTracker_transition (current_level level : NMT_TrackingLevel)
  | report (summary_only : Bool) (scale : Nat)
deriving DecidableEq, Repr

/-- The process-wide state `MemTracker` works on: `_tracking_level`, the static flag
`g_final_report_did_run`, and the calls made so far. -/
structure MemTracker where
  _tracking_level : NMT_TrackingLevel
  g_final_report_did_run : Bool
  calls : List NmtCall
deriving DecidableEq, Repr

namespace MemTracker

/-- Modelled from the spec: `MemTracker::tracking_level()` is declared outside the sources;
it is the single-word read of the current level. -/
def tracking_level (s : MemTracker) : NMT_TrackingLevel := s._tracking_level

/-- The function `MemTracker::transition_to(level)`; `debug` says whether the `assert` is compiled in.
`Except.error` is the VM aborting on the failed assertion. -/
def transition_to (debug : Bool) (level : NMT_TrackingLevel) (s : MemTracker) :
    Except String (Bool × MemTracker) :=
  let current_level := s.tracking_level
  if debug && !(level != .NMT_off || current_level == .NMT_off) then
    .error "Cannot transition NMT to off"
  else if current_level = level then
    .ok (true, s)
  else if current_level.toNat > level.toNat then
    .ok (true,
      { s with
        _tracking_level := level,
        calls := s.calls ++
          [.fence,
           .VirtualMemoryTracker_transition current_level level,
           .MallocTracker_transition current_level level,
           .ThreadStackTracker_transition current_level level] })
  else
    .ok (true, s)

/-- The function `MemTracker::shutdown()`. -/
def shutdown (debug : Bool) (s : MemTracker) : Except String MemTracker :=
  if s.tracking_level.toNat > NMT_TrackingLevel.NMT_minimal.toNat then
    match transition_to debug .NMT_minimal s with
    | .ok (_, s1) => .ok s1
    | .error msg => .error msg
  else
    .ok s

/-- The step `Atomic::cmpxchg(&g_final_report_did_run, false, true)`: returns the value observed and
stores `true` when that value was `false`. -/
def cmpxchg_final_report_did_run (s : MemTracker) : Bool × MemTracker :=
  (s.g_final_report_did_run,
    if s.g_final_report_did_run = false then { s with g_final_report_did_run := true } else s)

/-- The guarded body of `MemTracker::final_report`. -/
def final_report_body (s : MemTracker) : MemTracker :=
  let level := s.tracking_level
  if level.toNat ≥ NMT_TrackingLevel.NMT_summary.toNat then
    { s with calls := s.calls ++ [.report (level == .NMT_summary) 1] }
  else s

/-- The function `MemTracker::final_report(output)` run without interruption. -/
def final_report (s : MemTracker) : MemTracker :=
  let r := cmpxchg_final_report_did_run s
  if r.1 = false then final_report_body r.2 else r.2

end MemTracker

/-- One call of the level-changing interface of `MemTracker`. -/
inductive LevelCall where
  | transition_to (level : NMT_TrackingLevel)
  | shutdown
deriving DecidableEq, Repr

/-- Performs one call. -/
def LevelCall.run (debug : Bool) : LevelCall → MemTracker → Except String MemTracker
  | .transition_to level, s =>
    match MemTracker.transition_to debug level s with
    | .ok (_, s1) => .ok s1
    | .error msg => .error msg
  | .shutdown, s => MemTracker.shutdown debug s

/-- The states after each completed call of a sequence of calls, in order; the sequence
stops at a call that aborts the VM. -/
def runLevelCalls (debug : Bool) : List LevelCall → MemTracker → List MemTracker
  | [], _ => []
  | c :: rest, s =>
    match c.run debug s with
    | .ok s1 => s1 :: runLevelCalls debug rest s1
    | .error _ => []

/-! ## Overlapping invocations of `MemTracker::final_report` -/

/-- Where one invocation of `final_report` stands: before its compare-and-exchange; inside
the guarded body; returned after running the body; returned without entering it. -/
inductive Pc where
  | atCmpxchg
  | inBody
  | doneBody
  | doneSkipped
deriving DecidableEq, Repr

/-- True when the invocation has entered the guarded body. -/
def Pc.entered : Pc → Bool
  | .inBody => true
  | .doneBody => true
  | _ => false

/-- Several invocations of `final_report` in flight over the shared state. -/
structure FinalReportRun where
  mem : MemTracker
  pcs : List Pc
deriving DecidableEq, Repr

/-- All `n` invocations are about to start; the flag has its initial value `false`. -/
def FinalReportRun.init (level : NMT_TrackingLevel) (calls : List NmtCall) (n : Nat) :
    FinalReportRun :=
  { mem := { _tracking_level := level, g_final_report_did_run := false, calls := calls },
    pcs := List.replicate n .atCmpxchg }

/-- Invocation `i` takes its next atomic step: the compare-and-exchange, then (if it
observed `false`) the body. A finished or non-existent invocation takes no step. -/
def FinalReportRun.step (r : FinalReportRun) (i : Nat) : FinalReportRun :=
  match r.pcs[i]? with
  | some .atCmpxchg =>
    let c := r.mem.cmpxchg_final_report_did_run
    if c.1 = false then { mem := c.2, pcs := r.pcs.set i .inBody }
    else { mem := c.2, pcs := r.pcs.set i .doneSkipped }
  | some .inBody => { mem := r.mem.final_report_body, pcs := r.pcs.set i .doneBody }
  | _ => r

/-- Runs the invocations in the interleaving given by `schedule`. -/
def FinalReportRun.run (schedule : List Nat) (r : FinalReportRun) : FinalReportRun :=
  schedule.foldl FinalReportRun.step r

/-- What holds of a run of overlapping `final_report` invocations after the steps of
`schedule`: before any invocation has stepped the flag is clear and nothing was recorded;
afterwards the flag is set, the first invocation that stepped is in (or through) the body,
and every other invocation is either still before its compare-and-exchange or has returned
without entering the body. -/
def FinalReportRun.Inv (level : NMT_TrackingLevel) (calls : List NmtCall) (n : Nat)
    (schedule : List Nat) (r : FinalReportRun) : Prop :=
  r.pcs.length = n ∧ r.mem._tracking_level = level ∧
  ((schedule.find? (fun i => decide (i < n)) = none ∧
      r.mem.g_final_report_did_run = false ∧ r.mem.calls = calls ∧
      ∀ (i : Nat) (pc : Pc), r.pcs[i]? = some pc → pc = .atCmpxchg) ∨
   (∃ j, schedule.find? (fun i => decide (i < n)) = some j ∧
      r.mem.g_final_report_did_run = true ∧
      ((r.pcs[j]? = some .inBody ∧ r.mem.calls = calls) ∨
       (r.pcs[j]? = some .doneBody ∧
          r.mem.calls = (MemTracker.final_report_body ⟨level, true, calls⟩).calls)) ∧
      ∀ (i : Nat) (pc : Pc), i ≠ j → r.pcs[i]? = some pc → pc = .atCmpxchg ∨ pc = .doneSkipped))

/-! ## `MemTracker::init_tracking_level` -/

/-- The part of the process state `MemTracker::init_tracking_level` reads and writes: the
static flag `_is_nmt_env_valid` and the process environment, a list of name/value pairs. -/
structure NmtLaunch where
  _is_nmt_env_valid : Bool
  environ : List (String × String)
deriving DecidableEq, Repr

/-- The libc call `getenv(name)`: the value of the first entry with that name. -/
def getenv (environ : List (String × String)) (name : String) : Option String :=
  (environ.find? (fun e => e.1 == name)).map (fun e => e.2)

/-- The call `os::unsetenv(name)`: every entry with that name is removed. -/
def unsetenv (environ : List (String × String)) (name : String) : List (String × String) :=
  environ.filter (fun e => e.1 != name)

/-- The name built by `jio_snprintf(nmt_env_variable, ..., "NMT_LEVEL_%d", pid)`. -/
def nmt_env_variable (pid : Int) : String := "NMT_LEVEL_" ++ toString pid

namespace MemTracker

/-- The function `MemTracker::init_tracking_level()`. The process id and the results of
`MallocTracker::initialize(level)` and `VirtualMemoryTracker::initialize(level)`, which are
outside the sources, are arguments. -/
def init_tracking_level (pid : Int)
    (MallocTracker_init VirtualMemoryTracker_init : NMT_TrackingLevel → Bool)
    (s : NmtLaunch) : NMT_TrackingLevel × NmtLaunch :=
  let name := nmt_env_variable pid
  let r : NMT_TrackingLevel × NmtLaunch :=
    match getenv s.environ name with
    | none => (.NMT_off, s)
    | some nmt_env_value =>
      let lv : NMT_TrackingLevel × Bool :=
        if nmt_env_value = "summary" then (.NMT_summary, s._is_nmt_env_valid)
        else if nmt_env_value = "detail" then (.NMT_detail, s._is_nmt_env_valid)
        else if nmt_env_value ≠ "off" then (.NMT_off, false)
        else (.NMT_off, s._is_nmt_env_valid)
      (lv.1, { _is_nmt_env_valid := lv.2, environ := unsetenv s.environ name })
  if !MallocTracker_init r.1 || !VirtualMemoryTracker_init r.1 then (.NMT_off, r.2)
  else r

/-- The function `MemTracker::verify_nmt_option()`. -/
def verify_nmt_option (s : NmtLaunch) : Bool := s._is_nmt_env_valid

end MemTracker

/-! ## Address space: the kernel's side -/

/-- Access masks the sources pass to `mmap`: `PROT_NONE`, `PROT_READ|PROT_WRITE`,
`PROT_READ|PROT_WRITE|PROT_EXEC`. -/
inductive Prot where
  | PROT_NONE
  | PROT_READ_WRITE
  | PROT_READ_WRITE_EXEC
deriving DecidableEq, Repr

/-- The mappings of the process: for each address, whether it is mapped and with which
access mask. -/
abbrev AddrSpace := Nat → Option Prot

/-- Flags the sources pass to `mmap` besides `MAP_PRIVATE`. -/
structure MapFlags where
  MAP_FIXED : Bool
  MAP_NORESERVE : Bool
deriving DecidableEq, Repr

/-- System calls on the address space, recorded in program order. -/
inductive OsCall where
  | mmap (addr size : Nat) (prot : Prot) (flags : MapFlags)
  | munmap (addr size : Nat)
  | posix_madvise_ACCESS_MANY (addr bytes : Nat)
  | memcntl_HAT_ADVISE (addr bytes pagesize : Nat)
deriving DecidableEq, Repr

/-- The process as the kernel sees it: base page size, mappings, `errno`, and the system
calls made so far. -/
structure OsState where
  page : Nat
  space : AddrSpace
  errno : Int
  calls : List OsCall

/-- The kernel's answer to one `mmap` call: the address where it placed the mapping, or
`MAP_FAILED` with the `errno` it sets. -/
inductive MmapAnswer where
  | placed (b : Nat)
  | MAP_FAILED (err : Int)
deriving DecidableEq, Repr

/-- Errno values of Solaris `<sys/errno.h>` named in the sources. -/
def EBADF : Int := 9

/-- Errno `EAGAIN`. -/
def EAGAIN : Int := 11

/-- Errno `ENOMEM`. -/
def ENOMEM : Int := 12

/-- Errno `EINVAL`. -/
def EINVAL : Int := 22

/-- Errno `ENOTSUP`. -/
def ENOTSUP : Int := 48

/-- Length of a range once the kernel has rounded it up to whole pages. -/
def roundUp (page n : Nat) : Nat := (n + page - 1) / page * page

/-- The mappings after `[b, b + len)` has been mapped with `prot`. -/
def mapRange (space : AddrSpace) (b len : Nat) (prot : Prot) : AddrSpace :=
  fun a => if b ≤ a ∧ a < b + len then some prot else space a

/-- The mappings after `[b, b + len)` has been unmapped. -/
def unmapRange (space : AddrSpace) (b len : Nat) : AddrSpace :=
  fun a => if b ≤ a ∧ a < b + len then none else space a

/-- What the kernel guarantees about its answer to `mmap(addr, size, ...)`: a mapping is
placed only for a non-zero size, at a page-aligned address other than `NULL`; with
`MAP_FIXED` exactly at `addr`; without it only over addresses that were free. A failure
sets a non-zero `errno`. -/
def MmapAnswer.legal (os : OsState) (addr size : Nat) (flags : MapFlags) : MmapAnswer → Prop
  | .placed b =>
    0 < size ∧ b ≠ 0 ∧ b % os.page = 0 ∧
      (if flags.MAP_FIXED then b = addr
       else ∀ a, b ≤ a → a < b + roundUp os.page size → os.space a = none)
  | .MAP_FAILED err => err ≠ 0

/-- The system call `mmap(addr, size, prot, flags, fd, 0)` answered by `ans`: `none` is
`MAP_FAILED`. -/
def OsState.mmap (os : OsState) (ans : MmapAnswer) (addr size : Nat) (prot : Prot)
    (flags : MapFlags) : Option Nat × OsState :=
  match ans with
  | .placed b =>
    (some b,
      { os with
        space := mapRange os.space b (roundUp os.page size) prot,
        calls := os.calls ++ [.mmap addr size prot flags] })
  | .MAP_FAILED err =>
    (none, { os with errno := err, calls := os.calls ++ [.mmap addr size prot flags] })

/-- The system call `munmap(addr, len)`: it fails with `EINVAL` for a zero length or an
address that is not page-aligned, and otherwise removes the pages of `[addr, addr + len)`. -/
def OsState.munmap (os : OsState) (addr len : Nat) : Int × OsState :=
  if len = 0 ∨ addr % os.page ≠ 0 then
    (-1, { os with errno := EINVAL, calls := os.calls ++ [.munmap addr len] })
  else
    (0,
      { os with
        space := unmapRange os.space addr (roundUp os.page len),
        calls := os.calls ++ [.munmap addr len] })

/-! ## Address space: the functions of `os_solaris.cpp` -/

/-- VM flags and build mode read by the address-space functions. -/
structure VmFlags where
  debug : Bool
  UseNUMAInterleaving : Bool
  UseLargePages : Bool
deriving DecidableEq, Repr

/-- Modelled from the spec: `is_aligned(size, alignment)` is declared outside the sources;
it holds when `alignment` evenly divides `size`. -/
def is_aligned (size alignment : Nat) : Bool := size % alignment == 0

/-- The function `recoverable_mmap_error(err)`. -/
def recoverable_mmap_error (err : Int) : Bool :=
  err == EBADF || err == EINVAL || err == ENOTSUP

/-- The function `os::Solaris::mmap_chunk(addr, size, flags, prot)`; `0` is `NULL`. -/
def mmap_chunk (os : OsState) (ans : MmapAnswer) (addr size : Nat) (flags : MapFlags)
    (prot : Prot) : Nat × OsState :=
  match os.mmap ans addr size prot flags with
  | (none, os1) => (0, os1)
  | (some b, os1) => (b, os1)

/-- The function `os::Solaris::anon_mmap(requested_addr, bytes)`. -/
def anon_mmap (os : OsState) (ans : MmapAnswer) (requested_addr bytes : Nat) : Nat × OsState :=
  mmap_chunk os ans requested_addr bytes { MAP_FIXED := false, MAP_NORESERVE := true }
    .PROT_NONE

/-- The function `os::pd_reserve_memory(bytes, exec)`. -/
def pd_reserve_memory (os : OsState) (ans : MmapAnswer) (bytes : Nat) (_exec : Bool) :
    Nat × OsState :=
  anon_mmap os ans 0 bytes

/-- The function `os::pd_unmap_memory(addr, bytes)`. -/
def pd_unmap_memory (os : OsState) (addr bytes : Nat) : Bool × OsState :=
  let r := os.munmap addr bytes
  (r.1 == 0, r.2)

/-- The function `os::pd_release_memory(addr, bytes)`. -/
def pd_release_memory (os : OsState) (addr bytes : Nat) : Bool × OsState :=
  let r := os.munmap addr bytes
  (r.1 == 0, r.2)

/-- The function `os::pd_attempt_reserve_memory_at(requested_addr, bytes, exec)`; `0` is
`NULL`, `Except.error` a failed debug-build assertion. -/
def pd_attempt_reserve_memory_at (debug : Bool) (os : OsState) (ans : MmapAnswer)
    (requested_addr bytes : Nat) (_exec : Bool) : Except String (Nat × OsState) :=
  if debug && bytes % os.page != 0 then .error "reserving unexpected size block"
  else
    let r := anon_mmap os ans requested_addr bytes
    if r.1 = requested_addr then .ok (r.1, r.2)
    else if r.1 != 0 then .ok (0, (pd_unmap_memory r.2 r.1 bytes).2)
    else .ok (0, r.2)

/-- The function `os::numa_make_global(addr, bytes)`; the result of `posix_madvise` only
decides whether a warning is printed. -/
def numa_make_global (debug : Bool) (os : OsState) (addr bytes : Nat) :
    Except String OsState :=
  if debug && addr % os.page != 0 then .error "Address should be page-aligned."
  else .ok { os with calls := os.calls ++ [.posix_madvise_ACCESS_MANY addr bytes] }

/-- The function `os::Solaris::commit_memory_impl(addr, bytes, exec)`. An `Except.error`
is the VM exiting: `vm_exit_out_of_memory` or a failed debug-build assertion. -/
def commit_memory_impl (flags : VmFlags) (os : OsState) (ans : MmapAnswer)
    (addr bytes : Nat) (exec : Bool) : Except String (Int × OsState) :=
  let prot := if exec then Prot.PROT_READ_WRITE_EXEC else Prot.PROT_READ_WRITE
  let r := mmap_chunk os ans addr bytes { MAP_FIXED := true, MAP_NORESERVE := false } prot
  if r.1 != 0 then
    if flags.UseNUMAInterleaving then
      match numa_make_global flags.debug r.2 addr bytes with
      | .ok os2 => .ok (0, os2)
      | .error msg => .error msg
    else .ok (0, r.2)
  else
    let err := r.2.errno
    if !recoverable_mmap_error err then .error "vm_exit_out_of_memory"
    else .ok (err, r.2)

/-- The function `os::pd_commit_memory(addr, bytes, exec)`. -/
def pd_commit_memory (flags : VmFlags) (os : OsState) (ans : MmapAnswer)
    (addr bytes : Nat) (exec : Bool) : Except String (Bool × OsState) :=
  match commit_memory_impl flags os ans addr bytes exec with
  | .ok (err, os1) => .ok (err == 0, os1)
  | .error msg => .error msg

/-- How the scan of `_illumos_page_sizes` in `page_size_for_alignment` ends: at an entry
that divides the alignment; at a zero entry; or past the last slot of the array. -/
inductive Scan where
  | found (page_size : Nat)
  | terminator
  | overrun
deriving DecidableEq, Repr

/-- The loop `for (i = 0; _illumos_page_sizes[i] != 0; i++) if (is_aligned(alignment,
_illumos_page_sizes[i])) return _illumos_page_sizes[i];` over the slots of the array. -/
def scan_page_sizes (alignment : Nat) : List Nat → Scan
  | [] => .overrun
  | p :: rest =>
    if p = 0 then .terminator
    else if is_aligned alignment p then .found p
    else scan_page_sizes alignment rest

/-- The function `os::Solaris::page_size_for_alignment(alignment)`; `table` is the content
of `_illumos_page_sizes` after `getpagesizes` has filled it, `vm_page_size` the base page
size. -/
def page_size_for_alignment (debug : Bool) (vm_page_size : Nat) (table : List Nat)
    (alignment : Nat) : Except String Nat :=
  if debug && !is_aligned alignment vm_page_size then .error "alignment is not aligned"
  else
    match scan_page_sizes alignment table with
    | .found p => .ok p
    | .terminator => .ok vm_page_size
    | .overrun => .error "read past the end of _illumos_page_sizes"

/-- The function `os::Solaris::setup_large_pages(start, bytes, align)`; `_page_sizes` is
the set `is_valid_page_size` consults, `memcntl_rslt` the result of the `memcntl` call. -/
def setup_large_pages (debug : Bool) (_page_sizes : List Nat) (memcntl_rslt : Int)
    (os : OsState) (start bytes align : Nat) : Except String (Bool × OsState) :=
  if debug && !_page_sizes.contains align then .error "not a valid page size"
  else if debug && !is_aligned start align then .error "start is not aligned"
  else if debug && !is_aligned bytes align then .error "bytes is not aligned"
  else
    .ok (memcntl_rslt == 0,
      { os with calls := os.calls ++ [.memcntl_HAT_ADVISE start bytes align] })

/-- The function `os::Solaris::commit_memory_impl(addr, bytes, alignment_hint, exec)`. -/
def commit_memory_impl_alignment_hint (flags : VmFlags) (table _page_sizes : List Nat)
    (memcntl_rslt : Int) (os : OsState) (ans : MmapAnswer)
    (addr bytes alignment_hint : Nat) (exec : Bool) : Except String (Int × OsState) :=
  match commit_memory_impl flags os ans addr bytes exec with
  | .error msg => .error msg
  | .ok (err, os1) =>
    if err == 0 && flags.UseLargePages && decide (alignment_hint > 0) then
      if flags.debug && !is_aligned bytes alignment_hint then
        .error "bytes is not aligned to alignment_hint"
      else
        match page_size_for_alignment flags.debug os1.page table alignment_hint with
        | .error msg => .error msg
        | .ok page_size =>
          if page_size > os1.page then
            match setup_large_pages flags.debug _page_sizes memcntl_rslt os1 addr bytes
                page_size with
            | .error msg => .error msg
            | .ok (_, os2) => .ok (err, os2)
          else .ok (err, os1)
    else .ok (err, os1)

/-! ## Native thread priorities -/

/-- Two's-complement wrap of a mathematical integer into the signed 32-bit range, applied
wherever the source computes in `int`. -/
def wrap32 (x : Int) : Int := (x + 2 ^ 31) % 2 ^ 32 - 2 ^ 31

/-- Two's-complement wrap into the signed 16-bit range of `pri_t` (a `short`). -/
def wrap16 (x : Int) : Int := (x + 2 ^ 15) % 2 ^ 16 - 2 ^ 15

/-- The function `scale_to_lwp_priority(rMin, rMax, x)`. -/
def scale_to_lwp_priority (rMin rMax x : Int) : Int :=
  if x = 127 then rMax
  else wrap32 (Int.tdiv (wrap32 (x * wrap32 (rMax - rMin))) 128 + rMin)

/-- The record `SchedInfo`: class id and priority bounds of one scheduling class. -/
structure SchedInfo where
  schedPolicy : Int
  maxPrio : Int
  minPrio : Int
deriving DecidableEq, Repr

/-- The file-scope variables and VM flags the priority functions read. `criticalPrio` is
`FXCriticalPriority`, a constant declared outside the sources. -/
structure PrioGlobals where
  tsLimits : SchedInfo
  iaLimits : SchedInfo
  rtLimits : SchedInfo
  fxLimits : SchedInfo
  myClass : Int
  priocntl_enable : Bool
  criticalPrio : Int
  java_MaxPriority_to_os_priority : Int
  UseThreadPriorities : Bool
deriving DecidableEq, Repr

/-- Modelled from the spec: `MinimumPriority`, the lower end of the native scale 0..127,
is declared outside the sources. -/
def MinimumPriority : Int := 0

/-- Modelled from the spec: `MaximumPriority`, the upper end of the native scale 0..127,
is declared outside the sources. -/
def MaximumPriority : Int := 127

/-- A limit field of the parameter block handed to `PC_SETPARMS`: the class's `NOCHANGE`
sentinel or a value. -/
inductive ParmField where
  | NOCHANGE
  | value (v : Int)
deriving DecidableEq, Repr

/-- Calls into the scheduler, recorded in program order. `PC_SETPARMS` carries the class id,
the priority field and, for the classes that have one, the limit field. -/
inductive SchedCall where
  | thr_setprio (thread_id newpri : Int)
  | PC_GETPARMS (lwpid : Int)
  | PC_SETPARMS (lwpid pc_cid pri : Int) (uprilim : Option ParmField)
deriving DecidableEq, Repr

/-- The kernel's answers to the `priocntl` calls of one `set_lwp_class_and_priority`: result
and `errno` of the first `PC_GETPARMS`, the class id and user priority limit it reports,
result and `errno` of `PC_SETPARMS`, and result and class id of the debug-build read-back. -/
structure PriocntlAnswers where
  getparms_rslt : Int
  getparms_errno : Int
  pc_cid : Int
  uprilim : Int
  setparms_rslt : Int
  setparms_errno : Int
  readback_rslt : Int
  readback_cid : Int
deriving DecidableEq, Repr

/-- The parameter block `set_lwp_class_and_priority` builds for a class with a user priority
limit (`IA`, `TS`, `FX`): the priority is scaled into `[minPrio, maxClamped]` or taken as it
is, and stored in a `pri_t`. -/
def limited_class_parms (limits : SchedInfo) (k : PriocntlAnswers) (lwpid newPrio : Int)
    (new_class : Int) (scale : Bool) : SchedCall :=
  let same := decide (k.pc_cid = new_class)
  let maxClamped := min limits.maxPrio (if same then k.uprilim else limits.maxPrio)
  let upri := if scale then scale_to_lwp_priority limits.minPrio maxClamped newPrio else newPrio
  .PC_SETPARMS lwpid new_class (wrap16 upri)
    (some (if same then .NOCHANGE else .value (wrap16 limits.maxPrio)))

/-- The function `set_lwp_class_and_priority(ThreadID, lwpid, newPrio, new_class, scale)`:
the status returned and the scheduler calls made. `Except.error` is a failed assertion of
the debug-build read-back. -/
def set_lwp_class_and_priority (debug : Bool) (g : PrioGlobals) (k : PriocntlAnswers)
    (_ThreadID lwpid newPrio new_class : Int) (scale : Bool) :
    Except String (Int × List SchedCall) :=
  if !g.priocntl_enable then .ok (EINVAL, [])
  else if lwpid ≤ 0 then .ok (0, [])
  else if k.getparms_rslt < 0 then .ok (k.getparms_errno, [.PC_GETPARMS lwpid])
  else
    let parms : Option SchedCall :=
      if new_class = g.rtLimits.schedPolicy then
        some (.PC_SETPARMS lwpid new_class
          (wrap16 (if scale then
              scale_to_lwp_priority g.rtLimits.minPrio g.rtLimits.maxPrio newPrio
            else newPrio))
          none)
      else if new_class = g.iaLimits.schedPolicy then
        some (limited_class_parms g.iaLimits k lwpid newPrio new_class scale)
      else if new_class = g.tsLimits.schedPolicy then
        some (limited_class_parms g.tsLimits k lwpid newPrio new_class scale)
      else if new_class = g.fxLimits.schedPolicy then
        some (limited_class_parms g.fxLimits k lwpid newPrio new_class scale)
      else none
    match parms with
    | none => .ok (EINVAL, [.PC_GETPARMS lwpid])
    | some setparms =>
      if k.setparms_rslt < 0 then .ok (k.setparms_errno, [.PC_GETPARMS lwpid, setparms])
      else if !debug then .ok (0, [.PC_GETPARMS lwpid, setparms])
      else if k.readback_rslt < 0 then .error "priocntl failed"
      else if new_class ≠ k.readback_cid then .error "cid's don't match"
      else .ok (0, [.PC_GETPARMS lwpid, setparms, .PC_GETPARMS lwpid])

/-- The fields of `OSThread` the priority functions read and write. -/
structure OSThread where
  thread_id : Int
  lwp_id : Int
  native_priority : Int
deriving DecidableEq, Repr

/-- How `os::set_native_priority` ends: with a result, or on the failed debug-build
assertion "bad priority mapping"; either way the `OSThread` as left and the scheduler calls
made are kept. -/
inductive PrioOutcome where
  | returned (ret : OSReturn) (osthread : OSThread) (calls : List SchedCall)
  | aborted (msg : String) (osthread : OSThread) (calls : List SchedCall)
deriving DecidableEq, Repr

/-- The `OSThread` as a call of `os::set_native_priority` left it. -/
def PrioOutcome.osthread : PrioOutcome → OSThread
  | .returned _ t _ => t
  | .aborted _ t _ => t

/-- The scheduler calls a call of `os::set_native_priority` made. -/
def PrioOutcome.calls : PrioOutcome → List SchedCall
  | .returned _ _ c => c
  | .aborted _ _ c => c

/-- The function `os::set_native_priority(thread, newpri)`. `thr_status` is the status of
`thr_setprio`; `k1` and `k2` are the kernel's answers to the first and to the retried
`set_lwp_class_and_priority`. -/
def set_native_priority (debug : Bool) (g : PrioGlobals) (thr_status : Int)
    (k1 k2 : PriocntlAnswers) (osthread : OSThread) (newpri : Int) : PrioOutcome :=
  let t : OSThread := { osthread with native_priority := newpri }
  let fxcritical := decide (newpri = -g.criticalPrio)
  let newpri := if fxcritical then g.criticalPrio else newpri
  if debug && !(decide (newpri ≥ MinimumPriority) && decide (newpri ≤ MaximumPriority)) then
    .aborted "bad priority mapping" t []
  else if !g.UseThreadPriorities then .returned .OS_OK t []
  else
    let status := if !fxcritical then thr_status else 0
    let calls1 : List SchedCall :=
      if !fxcritical then [.thr_setprio t.thread_id newpri] else []
    match set_lwp_class_and_priority debug g k1 t.thread_id t.lwp_id newpri
        (if fxcritical then g.fxLimits.schedPolicy else g.myClass) (!fxcritical) with
    | .error msg => .aborted msg t calls1
    | .ok (lwp_status, calls2) =>
      if lwp_status ≠ 0 ∧ fxcritical = true then
        match set_lwp_class_and_priority debug g k2 t.thread_id t.lwp_id
            g.java_MaxPriority_to_os_priority g.myClass false with
        | .error msg => .aborted msg t (calls1 ++ calls2)
        | .ok (lwp_status2, calls3) =>
          .returned (if status = 0 ∧ lwp_status2 = 0 then .OS_OK else .OS_ERR) t
            (calls1 ++ calls2 ++ calls3)
      else
        .returned (if status = 0 ∧ lwp_status = 0 then .OS_OK else .OS_ERR) t
          (calls1 ++ calls2)

/-- The part of `thread_native_entry` that replays the priority: the new thread stores its
lwp id, then, if its thread id is set and `UseThreadPriorities` is on, calls
`os::set_native_priority` with the value read back from `native_priority`. -/
def thread_native_entry_priority (debug : Bool) (g : PrioGlobals) (thr_status : Int)
    (k1 k2 : PriocntlAnswers) (lwp_self : Int) (osthread : OSThread) : PrioOutcome :=
  let osthr : OSThread := { osthread with lwp_id := lwp_self }
  if osthr.thread_id ≠ -1 then
    if g.UseThreadPriorities then
      set_native_priority debug g thr_status k1 k2 osthr osthr.native_priority
    else .returned .OS_OK osthr []
  else .returned .OS_OK osthr []

/-! ## `getTimeNanos` -/

/-- The function `getTimeNanos()`: returns the value handed back and the content of
`max_hrtime` afterwards. `now` is the reading of `gethrtime()`; `raised` is the amount by
which other threads, through this same compare-and-exchange, raised `max_hrtime` between the
read of `prev` and the compare-and-exchange of this call (0: nobody did). `Except.error`
is the failed debug-build assertion. -/
def getTimeNanos (debug : Bool) (now : Int) (raised : Nat) (max_hrtime : Int) :
    Except String (Int × Int) :=
  let prev := max_hrtime
  if now ≤ prev then .ok (prev, max_hrtime)
  else
    let current : Int := max_hrtime + raised
    let obsv := current
    let stored := if current = prev then now else current
    if debug && decide (obsv < prev) then .error "invariant"
    else .ok (if prev = obsv then now else obsv, stored)

/-- The values returned by a sequence of `getTimeNanos()` calls, each with its clock reading
and the interference it meets, paired with the content of `max_hrtime` after the call. The
sequence stops at a failed assertion. -/
def getTimeNanos_run (debug : Bool) : List (Int × Nat) → Int → List (Int × Int)
  | [], _ => []
  | (now, raised) :: rest, max_hrtime =>
    match getTimeNanos debug now raised max_hrtime with
    | .ok (ret, stored) => (ret, stored) :: getTimeNanos_run debug rest stored
    | .error _ => []

/-! ## `os::create_thread` -/

/-- Modelled from the spec: the lifecycle states of an `OSThread` are declared outside the
sources; the spec names `ALLOCATED`, `INITIALIZED` and `RUNNABLE`. -/
inductive ThreadState where
  | ALLOCATED
  | INITIALIZED
  | RUNNABLE
deriving DecidableEq, Repr

/-- Modelled from the spec: the thread kinds, declared outside the sources. -/
inductive ThreadType where
  | vm_thread
  | cgc_thread
  | pgc_thread
  | java_thread
  | compiler_thread
  | watcher_thread
deriving DecidableEq, Repr

/-- Modelled from the spec: `NormPriority` is declared outside the sources; the priority
table of `os_solaris.cpp` lists it as entry 5. -/
def NormPriority : Int := 5

/-- An `OSThread` object: the identifiers and native priority, the lifecycle state (`none`
until `set_state` is first called) and the `vm_created` mark. -/
structure OSThreadObj where
  ids : OSThread
  state : Option ThreadState
  vm_created : Bool
deriving DecidableEq, Repr

/-- The flags `os::create_thread` passes to `thr_create`. -/
structure ThrFlags where
  THR_DETACHED : Bool
  THR_SUSPENDED : Bool
deriving DecidableEq, Repr

/-- What `os::create_thread` does, in program order. -/
inductive CreateEv where
  | set_state (s : ThreadState)
  | reserve_memory (bytes : Nat)
  | release_memory (mem bytes : Nat)
  | delete_osthread
  | set_osthread (attached : Bool)
  | thr_create (stack_size : Nat) (flags : ThrFlags)
deriving DecidableEq, Repr

/-- The process-wide state `os::create_thread` works on: the thread counter and its soft
ceiling, and the process as the kernel sees it. -/
structure ThreadsState where
  _os_thread_count : Int
  _os_thread_limit : Int
  os : OsState

/-- The surroundings of one `os::create_thread` call: the object `new OSThread(NULL, NULL)`
returns (`none` is `NULL`), `os::Posix::get_initial_stack_size`, the flag
`UseDetachedThreads`, the kernel's answer to the `mmap` of the probe, and the status and
thread id `thr_create` hands back. -/
structure CreateEnv where
  fresh : Option OSThreadObj
  get_initial_stack_size : ThreadType → Nat → Nat
  UseDetachedThreads : Bool
  probe : MmapAnswer
  thr_create_status : Int
  tid : Int

/-- The result of `os::create_thread`: the value returned, `thread->osthread()` afterwards,
the process-wide state, and what was done. -/
structure CreateResult where
  ret : Bool
  osthread : Option OSThreadObj
  st : ThreadsState
  trace : List CreateEv

/-- The lifecycle state an event of `os::create_thread` sets, if it sets one. -/
def CreateEv.state? : CreateEv → Option ThreadState
  | .set_state s => some s
  | _ => none

/-- The constant `VirtualMemoryBangSize = 20*K*K`. -/
def VirtualMemoryBangSize : Nat := 20 * 1024 * 1024

/-- The function `os::create_thread(thread, thr_type, req_stack_size)`; `prior` is
`thread->osthread()` before the call. `os::reserve_memory` and `os::release_memory`, which
are outside the sources, reserve and release through `os::pd_reserve_memory` and
`os::pd_release_memory`. -/
def create_thread (env : CreateEnv) (prior : Option OSThreadObj) (thr_type : ThreadType)
    (req_stack_size : Nat) (st : ThreadsState) : CreateResult :=
  match env.fresh with
  | none => { ret := false, osthread := prior, st := st, trace := [] }
  | some osthread =>
    let stack_size := env.get_initial_stack_size thr_type req_stack_size
    let osthread : OSThreadObj := { osthread with state := some .ALLOCATED }
    let trace0 : List CreateEv := [.set_state .ALLOCATED]
    let probed : Option (OsState × List CreateEv) :=
      if st._os_thread_count > st._os_thread_limit then
        let r := pd_reserve_memory st.os env.probe VirtualMemoryBangSize false
        if r.1 = 0 then none
        else
          some ((pd_release_memory r.2 r.1 VirtualMemoryBangSize).2,
            [.reserve_memory VirtualMemoryBangSize,
             .release_memory r.1 VirtualMemoryBangSize])
      else some (st.os, [])
    match probed with
    | none =>
      { ret := false, osthread := prior,
        st := { st with
          os := (pd_reserve_memory st.os env.probe VirtualMemoryBangSize false).2 },
        trace := trace0 ++ [.reserve_memory VirtualMemoryBangSize, .delete_osthread] }
    | some (os1, trace1) =>
      let flags : ThrFlags :=
        { THR_DETACHED := env.UseDetachedThreads, THR_SUSPENDED := true }
      let osthread : OSThreadObj :=
        { osthread with ids := { osthread.ids with lwp_id := -1, thread_id := -1 } }
      let trace2 := trace0 ++ trace1 ++ [.set_osthread true, .thr_create stack_size flags]
      if env.thr_create_status ≠ 0 then
        { ret := false, osthread := none, st := { st with os := os1 },
          trace := trace2 ++ [.set_osthread false, .delete_osthread] }
      else
        { ret := true,
          osthread := some
            { ids := { thread_id := env.tid, lwp_id := osthread.ids.lwp_id,
                       native_priority := NormPriority },
              state := some .INITIALIZED,
              vm_created := true },
          st := { st with
            _os_thread_count := wrap32 (st._os_thread_count + 1), os := os1 },
          trace := trace2 ++ [.set_state .INITIALIZED] }

/-! ## `os::PlatformEvent`: the steps of the parking thread and of unparkers -/

/-- Where the thread that owns the event stands: outside `park`; after the decrement of
`_Event`, before `mutex_lock`; or inside the condition wait of `park()` (`timed` false) or
`park(jlong)` (`timed` true). -/
inductive ParkerPc where
  | running
  | decremented (timed : Bool)
  | waiting (timed : Bool)
deriving DecidableEq, Repr

/-- An event together with the position of its owner. -/
structure EventSys where
  event : PlatformEvent
  pc : ParkerPc
deriving DecidableEq, Repr

/-- The atomic steps on an event. Of the owner: the fetch-and-decrement that opens `park`;
`mutex_lock` with the increment of `_nParked` and the first loop test; a return of the
condition wait with its status. Of any thread: the exchange that opens `unpark`, and its
locked read of `_nParked` with the `guarantee` on it. -/
inductive EventStep where
  | park_enter (timed : Bool)
  | park_lock
  | wait_return (status : Status)
  | unpark_xchg
  | unpark_check
deriving DecidableEq, Repr

/-- True for the steps of the owner, which belong to `park`. -/
def EventStep.isPark : EventStep → Bool
  | .park_enter _ => true
  | .park_lock => true
  | .wait_return _ => true
  | _ => false

/-- The end of the locked section of `park`: `--_nParked; _Event = 0;` and the unlock. -/
def EventSys.leave (s : EventSys) : EventSys :=
  { event := { _Event := 0, _nParked := s.event._nParked - 1 }, pc := .running }

/-- The loop test `while (_Event < 0)`: wait (again) or leave. -/
def EventSys.test (s : EventSys) (timed : Bool) : EventSys :=
  if s.event._Event < 0 then { s with pc := .waiting timed } else s.leave

/-- One atomic step. A step of the owner that does not fit its position is no step at all.
`Except.error` is the VM aborting: "invariant" for a failed `guarantee` (or the `assert` on
`_nParked` that opens `park()`), "cond_wait" or "cond_timedwait" for a failed debug-build
`assert_status`. -/
def EventSys.step (cfg : Build) (s : EventSys) : EventStep → Except String EventSys
  | .park_enter timed =>
    match s.pc with
    | .running =>
      if (timed || cfg.debug) && s.event._nParked != 0 then .error "invariant"
      else
        let v := s.event._Event
        if v < 0 then .error "invariant"
        else if v = 0 then
          .ok { event := { s.event with _Event := v - 1 }, pc := .decremented timed }
        else .ok { event := { s.event with _Event := v - 1 }, pc := .running }
    | _ => .ok s
  | .park_lock =>
    match s.pc with
    | .decremented timed =>
      if s.event._nParked != 0 then .error "invariant"
      else
        .ok (EventSys.test
          { s with event := { s.event with _nParked := s.event._nParked + 1 } } timed)
    | _ => .ok s
  | .wait_return status =>
    match s.pc with
    | .waiting false =>
      let status := if status = .ETIME then Status.EINTR else status
      if cfg.debug && !(status = .ok || status = .EINTR) then .error "cond_wait"
      else .ok (s.test false)
    | .waiting true =>
      if cfg.debug &&
          !(status = .ok || status = .EINTR || status = .ETIME || status = .ETIMEDOUT) then
        .error "cond_timedwait"
      else if !cfg.FilterSpuriousWakeups then .ok s.leave
      else if status = .ETIME || status = .ETIMEDOUT then .ok s.leave
      else .ok (s.test true)
    | _ => .ok s
  | .unpark_xchg => .ok { s with event := { s.event with _Event := 1 } }
  | .unpark_check =>
    if !(s.event._nParked = 0 || s.event._nParked = 1) then .error "invariant"
    else .ok s

/-- Runs a sequence of steps; stops at the first abort. -/
def EventSys.run (cfg : Build) : List EventStep → EventSys → Except String EventSys
  | [], s => .ok s
  | e :: rest, s =>
    match s.step cfg e with
    | .ok s1 => EventSys.run cfg rest s1
    | .error msg => .error msg

/-- A freshly constructed event: `_Event = 0`, nobody parked, the owner outside `park`. -/
def EventSys.init : EventSys :=
  { event := { _Event := 0, _nParked := 0 }, pc := .running }

/-- What holds in every reachable state: outside `park` the counter is 0 or 1 and nobody is
parked; between the decrement and the lock it is -1 or 1 and nobody is parked; inside the
wait it is -1 or 1 and one thread is parked. -/
def EventSys.Inv (s : EventSys) : Prop :=
  match s.pc with
  | .running => (s.event._Event = 0 ∨ s.event._Event = 1) ∧ s.event._nParked = 0
  | .decremented _ => (s.event._Event = -1 ∨ s.event._Event = 1) ∧ s.event._nParked = 0
  | .waiting _ => (s.event._Event = -1 ∨ s.event._Event = 1) ∧ s.event._nParked = 1

/-- The state after `n` consecutive `unpark()` calls, `none` if one of them aborts. -/
def unpark_repeat : Nat → PlatformEvent → Option PlatformEvent
  | 0, s => some s
  | n + 1, s =>
    match PlatformEvent.unpark s with
    | .returned _ s1 _ => unpark_repeat n s1
    | _ => none

/-! ## Theorems: `os::PlatformEvent` -/

open PlatformEvent

/-- With no unpark arriving, the timed wait loop started at `_Event = -1` runs through any
number of spurious wake-ups and is left by the first timeout with `_Event` still `-1`,
after at least one `cond_timedwait`. -/
theorem timedWaitLoop_until_timeout (cfg : Build) (abst : Timespec) (t : Wake)
    (rest : List Wake) (ht : t.status.isTimeout = true) (htu : t.unparked = false) :
    ∀ (pre : List Wake) (trace : List Ev), (∀ w ∈ pre, w.spurious) →
      ∃ k, 1 ≤ k ∧ timedWaitLoop cfg abst (pre ++ t :: rest) (-1) trace
        = .exited (-1) (trace ++ List.replicate k (.cond_timedwait abst)) := by
  intro pre
  induction pre with
  | nil =>
    intro trace _
    refine ⟨1, le_refl _, ?_⟩
    obtain ⟨st, u⟩ := t
    cases st <;> simp_all [timedWaitLoop, applyUnpark, Status.isTimeout]
  | cons w pre ih =>
    intro trace hpre
    have hw : w.spurious := hpre w (List.mem_cons_self _ _)
    have hrest : ∀ x ∈ pre, x.spurious := fun x hx => hpre x (List.mem_cons_of_mem _ hx)
    obtain ⟨k, hk, hrec⟩ := ih (trace ++ [.cond_timedwait abst]) hrest
    obtain ⟨st, u⟩ := w
    obtain ⟨hst, hu⟩ := hw
    simp only at hst hu
    subst hu
    by_cases hf : cfg.FilterSpuriousWakeups = true
    · refine ⟨k + 1, by omega, ?_⟩
      rcases hst with h | h <;> subst h <;>
        simp [timedWaitLoop, applyUnpark, hf, hrec, List.replicate_succ]
    · refine ⟨1, le_refl _, ?_⟩
      rcases hst with h | h <;> subst h <;>
        simp [timedWaitLoop, applyUnpark, hf]

/-- With `FilterSpuriousWakeups` on, a timeout during which an unpark arrived leaves the
timed wait loop with `_Event = 1`. -/
theorem timedWaitLoop_timeout_with_unpark (cfg : Build) (abst : Timespec) (t : Wake)
    (rest : List Wake) (ht : t.status.isTimeout = true) (htu : t.unparked = true) :
    ∀ (pre : List Wake) (trace : List Ev), (∀ w ∈ pre, w.spurious) →
      ∃ event ltrace,
        timedWaitLoop cfg abst (pre ++ t :: rest) (-1) trace = .exited event ltrace ∧
        (cfg.FilterSpuriousWakeups = true → event = 1) := by
  intro pre
  induction pre with
  | nil =>
    intro trace _
    obtain ⟨st, u⟩ := t
    cases st <;> simp_all [timedWaitLoop, applyUnpark, Status.isTimeout]
  | cons w pre ih =>
    intro trace hpre
    have hw : w.spurious := hpre w (List.mem_cons_self _ _)
    have hrest : ∀ x ∈ pre, x.spurious := fun x hx => hpre x (List.mem_cons_of_mem _ hx)
    obtain ⟨ev, lt, hrec, hev⟩ := ih (trace ++ [.cond_timedwait abst]) hrest
    obtain ⟨st, u⟩ := w
    obtain ⟨hst, hu⟩ := hw
    simp only at hst hu
    subst hu
    by_cases hf : cfg.FilterSpuriousWakeups = true
    · rcases hst with h | h <;> subst h <;>
        simp [timedWaitLoop, applyUnpark, hf, hrec, hev]
    · rcases hst with h | h <;> subst h <;>
        simp [timedWaitLoop, applyUnpark, hf]

/-- Provided no wait returns a status outside `0`, `EINTR`, `ETIME`, `ETIMEDOUT`, the timed
wait loop is left once a wait reports a timeout (if not earlier). -/
theorem timedWaitLoop_exits (cfg : Build) (abst : Timespec) :
    ∀ (wakes : List Wake) (event : Int) (trace : List Ev),
      (∃ w ∈ wakes, w.status.isTimeout = true) →
      (∀ w ∈ wakes, ∀ c, w.status ≠ .other c) →
      ∃ ev ltrace, timedWaitLoop cfg abst wakes event trace = .exited ev ltrace := by
  intro wakes
  induction wakes with
  | nil =>
    rintro event trace ⟨w, hw, -⟩ -
    cases hw
  | cons w rest ih =>
    intro event trace hex hvalid
    have hw := hvalid w (List.mem_cons_self _ _)
    have hrest : ∀ x ∈ rest, ∀ c, x.status ≠ .other c :=
      fun x hx => hvalid x (List.mem_cons_of_mem _ hx)
    by_cases hev : event < 0
    · obtain ⟨st, u⟩ := w
      by_cases hf : cfg.FilterSpuriousWakeups = true
      · cases st with
        | ok =>
          have hex2 : ∃ x ∈ rest, x.status.isTimeout = true := by
            obtain ⟨x, hx, hxt⟩ := hex
            rcases List.mem_cons.mp hx with rfl | hx
            · simp [Status.isTimeout] at hxt
            · exact ⟨x, hx, hxt⟩
          obtain ⟨ev, lt, h⟩ := ih (applyUnpark u event) (trace ++ [.cond_timedwait abst])
            hex2 hrest
          exact ⟨ev, lt, by simp [timedWaitLoop, hev, hf, h]⟩
        | EINTR =>
          have hex2 : ∃ x ∈ rest, x.status.isTimeout = true := by
            obtain ⟨x, hx, hxt⟩ := hex
            rcases List.mem_cons.mp hx with rfl | hx
            · simp [Status.isTimeout] at hxt
            · exact ⟨x, hx, hxt⟩
          obtain ⟨ev, lt, h⟩ := ih (applyUnpark u event) (trace ++ [.cond_timedwait abst])
            hex2 hrest
          exact ⟨ev, lt, by simp [timedWaitLoop, hev, hf, h]⟩
        | ETIME =>
          exact ⟨applyUnpark u event, trace ++ [.cond_timedwait abst],
            by simp [timedWaitLoop, hev, hf]⟩
        | ETIMEDOUT =>
          exact ⟨applyUnpark u event, trace ++ [.cond_timedwait abst],
            by simp [timedWaitLoop, hev, hf]⟩
        | other c => exact absurd rfl (hw c)
      · cases st with
        | other c => exact absurd rfl (hw c)
        | _ =>
          exact ⟨applyUnpark u event, trace ++ [.cond_timedwait abst],
            by simp [timedWaitLoop, hev, hf]⟩
    · exact ⟨event, trace, by simp [timedWaitLoop, hev]⟩

/-- Claim C1. For an event with `_Event` equal to 0 or 1 and `_nParked = 0`, `unpark()`
returns with an empty trace, and the `park()` that follows returns with an empty trace as
well (no `mutex_lock`, no `cond_wait`: the caller does not block) and leaves `_Event = 0`;
this holds in either build and whatever the surroundings of the `park()` are. -/
theorem C1_unpark_then_park_does_not_block (cfg : Build) (env : ParkEnv) (s : PlatformEvent)
    (hE : s._Event = 0 ∨ s._Event = 1) (hN : s._nParked = 0) :
    ∃ s1, unpark s = .returned () s1 [] ∧
      park cfg env s1 = .returned () { _Event := 0, _nParked := 0 } [] := by
  obtain ⟨e, n⟩ := s
  simp only at hE hN
  subst hN
  refine ⟨{ _Event := 1, _nParked := 0 }, ?_, ?_⟩
  · rcases hE with h | h <;> subst h <;> simp [unpark]
  · simp [park]

/-- Claim C1 at a concrete input: the idle event, debug build, no wake-ups supplied. -/
theorem C1_unpark_then_park_witness :
    ∃ s1, unpark { _Event := 0, _nParked := 0 } = .returned () s1 [] ∧
      park ⟨true, true⟩ ⟨⟨0, 0⟩, false, []⟩ s1
        = .returned () { _Event := 0, _nParked := 0 } [] :=
  C1_unpark_then_park_does_not_block ⟨true, true⟩ ⟨⟨0, 0⟩, false, []⟩ ⟨0, 0⟩ (Or.inl rfl) rfl

/-- Claim C2. On an idle event (`_Event = 0`, `_nParked = 0`), `unpark()` returns with an
empty trace; the first `park(millis)` then returns `OS_OK` with an empty trace (no wait) and
leaves the event idle; a second `park(millis)` during which no unpark arrives takes the
mutex, calls `cond_timedwait` at least once and, once a wait reports `ETIME` or `ETIMEDOUT`
(after any number of returns with status `0` or `EINTR`), returns `OS_TIMEOUT`. -/
theorem C2_one_unpark_admits_one_park (cfg : Build) (s : PlatformEvent) (env1 : ParkEnv)
    (millis1 millis2 : Int) (now : Timeval) (pre : List Wake) (t : Wake) (rest : List Wake)
    (hE : s._Event = 0) (hN : s._nParked = 0)
    (hpre : ∀ w ∈ pre, w.spurious)
    (ht : t.status.isTimeout = true) (htu : t.unparked = false) :
    ∃ s1 s2, unpark s = .returned () s1 [] ∧
      park_millis cfg env1 millis1 s1 = .returned .OS_OK s2 [] ∧
      ∃ k, 1 ≤ k ∧
        park_millis cfg { now := now, early := false, wakes := pre ++ t :: rest } millis2 s2
          = .returned .OS_TIMEOUT { _Event := 0, _nParked := 0 }
              (([Ev.mutex_lock] ++
                  List.replicate k (.cond_timedwait (compute_abstime now millis2)))
                ++ [.mutex_unlock, .fence]) := by
  obtain ⟨e, n⟩ := s
  simp only at hE hN
  subst hE hN
  refine ⟨{ _Event := 1, _nParked := 0 }, { _Event := 0, _nParked := 0 }, ?_, ?_, ?_⟩
  · simp [unpark]
  · simp [park_millis]
  · obtain ⟨k, hk, hloop⟩ := timedWaitLoop_until_timeout cfg (compute_abstime now millis2)
      t rest ht htu pre [.mutex_lock] hpre
    refine ⟨k, hk, ?_⟩
    simp [park_millis, applyUnpark, hloop]

/-- Claim C2 at a concrete input: one `EINTR` return, then `ETIMEDOUT`, with a 1500 ms
timeout. -/
theorem C2_one_unpark_admits_one_park_witness :
    ∃ s1 s2, unpark { _Event := 0, _nParked := 0 } = .returned () s1 [] ∧
      park_millis ⟨true, true⟩ ⟨⟨100, 0⟩, false, []⟩ 1500 s1 = .returned .OS_OK s2 [] ∧
      ∃ k, 1 ≤ k ∧
        park_millis ⟨true, true⟩
            { now := ⟨100, 0⟩, early := false,
              wakes := [⟨.EINTR, false⟩] ++ ⟨.ETIMEDOUT, false⟩ :: [] } 1500 s2
          = .returned .OS_TIMEOUT { _Event := 0, _nParked := 0 }
              (([Ev.mutex_lock] ++
                  List.replicate k (.cond_timedwait (compute_abstime ⟨100, 0⟩ 1500)))
                ++ [.mutex_unlock, .fence]) :=
  C2_one_unpark_admits_one_park ⟨true, true⟩ ⟨0, 0⟩ ⟨⟨100, 0⟩, false, []⟩ 1500 1500 ⟨100, 0⟩
    [⟨.EINTR, false⟩] ⟨.ETIMEDOUT, false⟩ [] rfl rfl (by decide) rfl rfl

/-- Claim C3. For every state of an event in which `_nParked` is 0 or 1, the only values
the counter takes (it is incremented and decremented under the mutex by the one owner, after
`guarantee(_nParked == 0)`), `unpark()` returns and leaves `_Event = 1`. When the previous
value was non-negative it touches neither the mutex nor the condition variable. When the
previous value was negative it locks the mutex, reads `_nParked`, unlocks, and issues
`cond_signal` exactly when `_nParked` was non-zero, the signal coming after the unlock. -/
theorem C3_unpark_effects (s : PlatformEvent) (hn : s._nParked = 0 ∨ s._nParked = 1) :
    ∃ trace, unpark s = .returned () { s with _Event := 1 } trace ∧
      (0 ≤ s._Event → trace = []) ∧
      (s._Event < 0 → s._nParked = 0 → trace = [.mutex_lock, .mutex_unlock]) ∧
      (s._Event < 0 → s._nParked ≠ 0 → trace = [.mutex_lock, .mutex_unlock, .cond_signal]) ∧
      (s._Event < 0 → (Ev.cond_signal ∈ trace ↔ s._nParked ≠ 0)) := by
  obtain ⟨e, n⟩ := s
  simp only at hn
  by_cases he : 0 ≤ e
  · refine ⟨[], ?_, ?_, ?_, ?_, ?_⟩
    · simp [unpark, he]
    · intro _
      rfl
    · intro h
      simp only at h
      omega
    · intro h
      simp only at h
      omega
    · intro h
      simp only at h
      omega
  · have hlt : e < 0 := by omega
    rcases hn with rfl | rfl
    · refine ⟨[.mutex_lock, .mutex_unlock], ?_, ?_, ?_, ?_, ?_⟩
      · simp [unpark, hlt]
      · intro h
        simp only at h
        omega
      · intro _ _
        rfl
      · intro _ h
        simp at h
      · intro _
        simp
    · refine ⟨[.mutex_lock, .mutex_unlock, .cond_signal], ?_, ?_, ?_, ?_, ?_⟩
      · simp [unpark, hlt]
      · intro h
        simp only at h
        omega
      · intro _ h
        simp at h
      · intro _ _
        rfl
      · intro _
        simp

/-- Claim C3 at a concrete input: `_Event = -1` with one thread parked; the call locks,
unlocks, then signals. -/
theorem C3_unpark_effects_witness :
    ((1 : Int) = 0 ∨ (1 : Int) = 1) ∧
    ∃ trace, unpark { _Event := -1, _nParked := 1 }
        = .returned () { _Event := 1, _nParked := 1 } trace ∧
      trace = [.mutex_lock, .mutex_unlock, .cond_signal] :=
  ⟨Or.inr rfl,
    (C3_unpark_effects { _Event := -1, _nParked := 1 } (Or.inr rfl)).elim
      fun trace h => ⟨trace, h.1, h.2.2.2.1 (by decide) (by decide)⟩⟩

/-- Claim C4. Take a `park(millis)` that has to wait (`_Event = 0`, `_nParked = 0` on
entry). Whenever it returns, the wait loop was left with some counter value `event`, the
result is `OS_OK` exactly when `event` is non-negative and `OS_TIMEOUT` exactly when it is
negative, and the event is left with `_Event = 0` and `_nParked = 0`. In particular, with
`FilterSpuriousWakeups` on, a wait whose last status is `ETIME`/`ETIMEDOUT` but during which
an unpark arrived returns `OS_OK`. And the call does return once some wait reports a
timeout, provided every wait status is one of `0`, `EINTR`, `ETIME`, `ETIMEDOUT`. -/
theorem C4_timed_park_result_from_counter (cfg : Build) (env : ParkEnv) (millis : Int)
    (s : PlatformEvent) (hE : s._Event = 0) (hN : s._nParked = 0) :
    (∀ ret s1 trace, park_millis cfg env millis s = .returned ret s1 trace →
      ∃ event ltrace,
        timedWaitLoop cfg (compute_abstime env.now millis) env.wakes
            (applyUnpark env.early (-1)) [.mutex_lock] = .exited event ltrace ∧
        (ret = .OS_OK ↔ 0 ≤ event) ∧ (ret = .OS_TIMEOUT ↔ event < 0) ∧
        s1 = { _Event := 0, _nParked := 0 }) ∧
    (∀ (pre : List Wake) (t : Wake) (rest : List Wake),
      (∀ w ∈ pre, w.spurious) → t.status.isTimeout = true → t.unparked = true →
      cfg.FilterSpuriousWakeups = true →
      env.early = false → env.wakes = pre ++ t :: rest →
      ∃ trace, park_millis cfg env millis s
        = .returned .OS_OK { _Event := 0, _nParked := 0 } trace) ∧
    ((∃ w ∈ env.wakes, w.status.isTimeout = true) →
      (∀ w ∈ env.wakes, ∀ c, w.status ≠ .other c) →
      ∃ ret s1 trace, park_millis cfg env millis s = .returned ret s1 trace) := by
  obtain ⟨e, n⟩ := s
  simp only at hE hN
  subst hE hN
  refine ⟨?_, ?_, ?_⟩
  · intro ret s1 trace h
    simp only [park_millis] at h
    simp at h
    split at h
    · rename_i event ltrace heq
      refine ⟨event, ltrace, heq, ?_⟩
      injection h with h1 h2 h3
      subst h1 h2
      by_cases hev : 0 ≤ event
      · simp [hev]
      · simp [hev]
        omega
    · cases h
    · cases h
  · intro pre t rest hpre ht htu hf he hw
    obtain ⟨ev, lt, hloop, hev⟩ :=
      timedWaitLoop_timeout_with_unpark cfg (compute_abstime env.now millis) t rest ht htu pre
        [.mutex_lock] hpre
    have hev1 := hev hf
    subst hev1
    refine ⟨lt ++ [.mutex_unlock, .fence], ?_⟩
    simp [park_millis, he, hw, applyUnpark, hloop]
  · intro hex hvalid
    obtain ⟨ev, lt, h⟩ := timedWaitLoop_exits cfg (compute_abstime env.now millis) env.wakes
      (applyUnpark env.early (-1)) [.mutex_lock] hex hvalid
    exact ⟨if 0 ≤ ev then .OS_OK else .OS_TIMEOUT, { _Event := 0, _nParked := 0 },
      lt ++ [.mutex_unlock, .fence], by simp [park_millis, h]⟩

/-- Claim C4 at a concrete input: the only wait returns `ETIME` while an unpark arrived, and
the call returns `OS_OK`. -/
theorem C4_timed_park_result_witness :
    ∃ trace, park_millis ⟨true, true⟩ ⟨⟨100, 0⟩, false, [⟨.ETIME, true⟩]⟩ 20 ⟨0, 0⟩
      = .returned .OS_OK { _Event := 0, _nParked := 0 } trace :=
  (C4_timed_park_result_from_counter ⟨true, true⟩ ⟨⟨100, 0⟩, false, [⟨.ETIME, true⟩]⟩ 20
    ⟨0, 0⟩ rfl rfl).2.1 [] ⟨.ETIME, true⟩ [] (by decide) rfl rfl rfl rfl rfl

/-! ## Theorems: `Parker` -/

/-- Claim C5, as stated, fails for a zero relative time: with no permit and no interrupt
pending, `park(false, 0)` takes the mutex and calls `cond_wait`, where it stays until it is
woken. -/
theorem C5_zero_relative_time_counterexample :
    Parker.park ⟨true, true⟩
        { interrupted := false, now := ⟨100, 0⟩, acquired := true, permit := false,
          wake := none } false 0 { _counter := 0 }
      = .blocked { _counter := 0 }
          [.ThreadBlockInVM_enter, .mutex_trylock, .OSThreadWaitState_enter, .cond_wait] := by
  decide

/-- Claim C5, amended. If the duration is a negative relative time (`isAbsolute` false and
`time < 0`) or a zero absolute deadline (`isAbsolute` true and `time = 0`), `Parker::park`
returns at once with an empty trace: no mutex operation, no `cond_wait`, no
`cond_timedwait`. This holds whatever the permit and interrupt state, hence also when
neither is pending. -/
theorem C5_park_returns_at_once (cfg : Build) (env : ParkerEnv) (isAbsolute : Bool)
    (time : Int) (p : Parker)
    (h : (isAbsolute = false ∧ time < 0) ∨ (isAbsolute = true ∧ time = 0)) :
    Parker.park cfg env isAbsolute time p = .returned () { _counter := 0 } [] := by
  have hcond : (decide (time < 0) || (isAbsolute && time == 0)) = true := by
    rcases h with ⟨_, ht⟩ | ⟨ha, ht⟩
    · simp [ht]
    · subst ha ht
      simp
  unfold Parker.park
  simp only [hcond]
  split
  · rfl
  · split <;> simp

/-- Claim C5, amended, at concrete inputs: a zero absolute deadline. -/
theorem C5_park_returns_at_once_witness :
    Parker.park ⟨true, true⟩
        { interrupted := false, now := ⟨100, 0⟩, acquired := true, permit := false,
          wake := none } true 0 { _counter := 0 }
      = .returned () { _counter := 0 } [] :=
  C5_park_returns_at_once ⟨true, true⟩ _ true 0 { _counter := 0 } (Or.inr ⟨rfl, rfl⟩)

/-! ## Theorems: `MemTracker` level transitions -/

open MemTracker

/-- A completed `transition_to` never raises the level, in either build. -/
theorem transition_to_level_le (debug : Bool) (level : NMT_TrackingLevel) (s s1 : MemTracker)
    (r : Bool) (h : transition_to debug level s = .ok (r, s1)) :
    s1._tracking_level.toNat ≤ s._tracking_level.toNat := by
  obtain ⟨cur, flag, calls⟩ := s
  cases debug <;> cases level <;> cases cur <;>
    simp [transition_to, tracking_level, NMT_TrackingLevel.toNat] at h <;>
    (obtain ⟨-, rfl⟩ := h; simp [NMT_TrackingLevel.toNat])

/-- A completed `shutdown` never raises the level, in either build. -/
theorem shutdown_level_le (debug : Bool) (s s1 : MemTracker)
    (h : shutdown debug s = .ok s1) :
    s1._tracking_level.toNat ≤ s._tracking_level.toNat := by
  obtain ⟨cur, flag, calls⟩ := s
  cases debug <;> cases cur <;>
    simp [shutdown, transition_to, tracking_level, NMT_TrackingLevel.toNat] at h <;>
    (subst h; simp [NMT_TrackingLevel.toNat])

/-- Claim C6. For every current level and target `T`, in either build: whenever a first
`transition_to(T)` returns, a second `transition_to(T)` returns true and leaves the whole
state (level and recorded tracker calls) as the first call left it, so it invokes no tracker
transition; and the first call does return unless it is the debug-build assertion failure
(target `off` from a level above `off`). -/
theorem C6_transition_to_twice (debug : Bool) (T : NMT_TrackingLevel) (s : MemTracker) :
    (∀ r s1, transition_to debug T s = .ok (r, s1) →
      transition_to debug T s1 = .ok (true, s1)) ∧
    ((debug = false ∨ T ≠ .NMT_off ∨ s._tracking_level = .NMT_off) →
      ∃ s1, transition_to debug T s = .ok (true, s1)) := by
  obtain ⟨cur, flag, calls⟩ := s
  constructor
  · intro r s1 h
    cases debug <;> cases T <;> cases cur <;>
      simp [transition_to, tracking_level, NMT_TrackingLevel.toNat] at h <;>
      (obtain ⟨-, rfl⟩ := h; simp [transition_to, tracking_level, NMT_TrackingLevel.toNat])
  · intro h
    cases debug <;> cases T <;> cases cur <;>
      simp [transition_to, tracking_level, NMT_TrackingLevel.toNat] at h ⊢

/-- Claim C7. When the requested level `T` is not lower than the current level,
`transition_to(T)` returns true and leaves the state unchanged: same level, and no call to
`VirtualMemoryTracker::transition`, `MallocTracker::transition` or
`ThreadStackTracker::transition` is recorded. This holds in either build. -/
theorem C7_transition_to_not_lower (debug : Bool) (T : NMT_TrackingLevel) (s : MemTracker)
    (h : s._tracking_level.toNat ≤ T.toNat) :
    transition_to debug T s = .ok (true, s) := by
  obtain ⟨cur, flag, calls⟩ := s
  cases debug <;> cases T <;> cases cur <;>
    simp [transition_to, tracking_level, NMT_TrackingLevel.toNat] at h ⊢

/-- Claim C7 at a concrete input: a request for `detail` while the level is `summary`. -/
theorem C7_transition_to_not_lower_witness :
    transition_to true .NMT_detail ⟨.NMT_summary, false, []⟩
      = .ok (true, ⟨.NMT_summary, false, []⟩) :=
  C7_transition_to_not_lower true .NMT_detail ⟨.NMT_summary, false, []⟩ (by decide)

/-- Claim C8, the code at the failing input. In a product build (assertions compiled out)
`transition_to(NMT_off)` at level `summary` stores `off` and runs the three tracker
transitions; only in a debug build does the assertion "Cannot transition NMT to off" stop
the call before the level is written. -/
theorem C8_transition_to_off_in_product_build :
    transition_to false .NMT_off ⟨.NMT_summary, false, []⟩
        = .ok (true,
            ⟨.NMT_off, false,
              [.fence,
               .VirtualMemoryTracker_transition .NMT_summary .NMT_off,
               .MallocTracker_transition .NMT_summary .NMT_off,
               .ThreadStackTracker_transition .NMT_summary .NMT_off]⟩) ∧
      transition_to true .NMT_off ⟨.NMT_summary, false, []⟩
        = .error "Cannot transition NMT to off" := by
  constructor <;> rfl

/-- One completed call never raises the level. -/
theorem LevelCall.run_level_le (debug : Bool) (c : LevelCall) (s s1 : MemTracker)
    (h : c.run debug s = .ok s1) : s1._tracking_level.toNat ≤ s._tracking_level.toNat := by
  cases c with
  | transition_to level =>
    simp only [LevelCall.run] at h
    split at h
    · rename_i r s2 heq
      injection h with h
      subst h
      exact transition_to_level_le debug level s _ _ heq
    · cases h
  | shutdown => exact shutdown_level_le debug s s1 h

/-- Claim C9. Along every finite sequence of `transition_to(T)` and `shutdown()` calls, from
any state and in either build, the level after each completed call is at most the level
before it; and `shutdown()` always returns, leaving the level at `minimal` when it was above
`minimal` and unchanged otherwise. -/
theorem C9_level_never_rises (debug : Bool) (calls : List LevelCall) (s : MemTracker) :
    List.Chain (fun a b : MemTracker => b._tracking_level.toNat ≤ a._tracking_level.toNat)
        s (runLevelCalls debug calls s) ∧
      ∃ s1, shutdown debug s = .ok s1 ∧
        s1._tracking_level =
          if s._tracking_level.toNat > NMT_TrackingLevel.NMT_minimal.toNat
          then .NMT_minimal else s._tracking_level := by
  constructor
  · induction calls generalizing s with
    | nil => exact List.Chain.nil
    | cons c rest ih =>
      simp only [runLevelCalls]
      split
      · rename_i s1 heq
        exact List.Chain.cons (LevelCall.run_level_le debug c s s1 heq) (ih s1)
      · exact List.Chain.nil
  · obtain ⟨cur, flag, log⟩ := s
    cases debug <;> cases cur <;>
      simp [shutdown, transition_to, tracking_level, NMT_TrackingLevel.toNat]

/-! ## Theorems: overlapping `final_report` invocations -/

/-- The invariant holds before any step. -/
theorem FinalReportRun.inv_init (level : NMT_TrackingLevel) (calls : List NmtCall) (n : Nat) :
    FinalReportRun.Inv level calls n [] (FinalReportRun.init level calls n) := by
  refine ⟨by simp [FinalReportRun.init], rfl, Or.inl ⟨rfl, rfl, rfl, ?_⟩⟩
  intro i pc h
  simp only [FinalReportRun.init, List.getElem?_replicate] at h
  split at h
  · injection h with h
    exact h.symm
  · cases h

/-- One more step of any invocation preserves the invariant. -/
theorem FinalReportRun.inv_step (level : NMT_TrackingLevel) (calls : List NmtCall) (n : Nat)
    (schedule : List Nat) (r : FinalReportRun) (i : Nat)
    (h : FinalReportRun.Inv level calls n schedule r) :
    FinalReportRun.Inv level calls n (schedule ++ [i]) (r.step i) := by
  obtain ⟨hlen, hlvl, hcase⟩ := h
  obtain ⟨mem, pcs⟩ := r
  obtain ⟨lvl, flag, log⟩ := mem
  simp only at hlen hlvl hcase
  subst hlvl
  cases hpc : pcs[i]? with
  | none =>
    have hi : ¬ i < n := by
      rw [List.getElem?_eq_none_iff] at hpc
      omega
    have hstep : FinalReportRun.step ⟨⟨lvl, flag, log⟩, pcs⟩ i = ⟨⟨lvl, flag, log⟩, pcs⟩ := by
      simp [FinalReportRun.step, hpc]
    rw [hstep]
    refine ⟨hlen, rfl, ?_⟩
    simpa [List.find?_append, hi] using hcase
  | some pc =>
    have hi : i < n := by
      have := (List.getElem?_eq_some_iff.mp hpc).1
      omega
    have hi2 : i < pcs.length := by omega
    cases pc with
    | atCmpxchg =>
      rcases hcase with ⟨hfind, hflag, hlog, hall⟩ | ⟨j, hfind, hflag, hj, hothers⟩
      · subst hflag hlog
        have hstep : FinalReportRun.step ⟨⟨lvl, false, log⟩, pcs⟩ i
            = ⟨⟨lvl, true, log⟩, pcs.set i .inBody⟩ := by
          simp [FinalReportRun.step, hpc, MemTracker.cmpxchg_final_report_did_run]
        rw [hstep]
        refine ⟨by simpa using hlen, rfl, Or.inr ⟨i, ?_, rfl, Or.inl ⟨?_, rfl⟩, ?_⟩⟩
        · simp [List.find?_append, hfind, hi]
        · simp [List.getElem?_set_self hi2]
        · intro k pc hk hkpc
          simp only at hkpc
          rw [List.getElem?_set_ne (Ne.symm hk)] at hkpc
          exact Or.inl (hall k pc hkpc)
      · subst hflag
        have hij : i ≠ j := by
          rintro rfl
          rcases hj with ⟨hj, -⟩ | ⟨hj, -⟩ <;> rw [hpc] at hj <;> cases hj
        have hstep : FinalReportRun.step ⟨⟨lvl, true, log⟩, pcs⟩ i
            = ⟨⟨lvl, true, log⟩, pcs.set i .doneSkipped⟩ := by
          simp [FinalReportRun.step, hpc, MemTracker.cmpxchg_final_report_did_run]
        rw [hstep]
        refine ⟨by simpa using hlen, rfl, Or.inr ⟨j, ?_, rfl, ?_, ?_⟩⟩
        · simp [List.find?_append, hfind]
        · simpa [List.getElem?_set_ne hij] using hj
        · intro k pc hk hkpc
          simp only at hkpc
          by_cases hki : i = k
          · subst hki
            rw [List.getElem?_set_self hi2] at hkpc
            injection hkpc with hkpc
            exact Or.inr hkpc.symm
          · rw [List.getElem?_set_ne hki] at hkpc
            exact hothers k pc hk hkpc
    | inBody =>
      rcases hcase with ⟨hfind, hflag, hlog, hall⟩ | ⟨j, hfind, hflag, hj, hothers⟩
      · have := hall i _ hpc
        cases this
      · subst hflag
        have hij : i = j := by
          by_contra hne
          rcases hothers i _ hne hpc with h | h <;> cases h
        subst hij
        have hlog : log = calls := by
          rcases hj with ⟨-, hl⟩ | ⟨hj, -⟩
          · exact hl
          · rw [hpc] at hj
            cases hj
        subst hlog
        have hstep : FinalReportRun.step ⟨⟨lvl, true, log⟩, pcs⟩ i
            = ⟨MemTracker.final_report_body ⟨lvl, true, log⟩, pcs.set i .doneBody⟩ := by
          simp [FinalReportRun.step, hpc]
        rw [hstep]
        refine ⟨by simpa using hlen, ?_, Or.inr ⟨i, ?_, ?_, Or.inr ⟨?_, rfl⟩, ?_⟩⟩
        · simp only [MemTracker.final_report_body]
          split <;> rfl
        · simp [List.find?_append, hfind]
        · simp only [MemTracker.final_report_body]
          split <;> rfl
        · simp [List.getElem?_set_self hi2]
        · intro k pc hk hkpc
          simp only at hkpc
          rw [List.getElem?_set_ne (Ne.symm hk)] at hkpc
          exact hothers k pc hk hkpc
    | doneBody =>
      have hstep : FinalReportRun.step ⟨⟨lvl, flag, log⟩, pcs⟩ i = ⟨⟨lvl, flag, log⟩, pcs⟩ := by
        simp [FinalReportRun.step, hpc]
      rw [hstep]
      rcases hcase with ⟨hfind, hflag, hlog, hall⟩ | ⟨j, hfind, hflag, hj, hothers⟩
      · have := hall i _ hpc
        cases this
      · exact ⟨hlen, rfl, Or.inr ⟨j, by simp [List.find?_append, hfind], hflag, hj, hothers⟩⟩
    | doneSkipped =>
      have hstep : FinalReportRun.step ⟨⟨lvl, flag, log⟩, pcs⟩ i = ⟨⟨lvl, flag, log⟩, pcs⟩ := by
        simp [FinalReportRun.step, hpc]
      rw [hstep]
      rcases hcase with ⟨hfind, hflag, hlog, hall⟩ | ⟨j, hfind, hflag, hj, hothers⟩
      · have := hall i _ hpc
        cases this
      · exact ⟨hlen, rfl, Or.inr ⟨j, by simp [List.find?_append, hfind], hflag, hj, hothers⟩⟩

/-- The invariant holds after every schedule. -/
theorem FinalReportRun.inv_run (level : NMT_TrackingLevel) (calls : List NmtCall) (n : Nat)
    (schedule : List Nat) :
    FinalReportRun.Inv level calls n schedule
      ((FinalReportRun.init level calls n).run schedule) := by
  induction schedule using List.reverseRecOn with
  | nil => exact FinalReportRun.inv_init level calls n
  | append_singleton l a ih =>
    have : (FinalReportRun.init level calls n).run (l ++ [a])
        = ((FinalReportRun.init level calls n).run l).step a := by
      simp [FinalReportRun.run, List.foldl_append]
    rw [this]
    exact FinalReportRun.inv_step level calls n l _ a ih

/-- Claim C10. Let `n` invocations of `final_report` run over the initially clear flag, their
atomic steps (compare-and-exchange, then body) interleaved in any order `schedule`. Then an
invocation has entered the guarded body exactly when it is the first invocation of the
schedule to step, that is the one whose compare-and-exchange observed `false`; as soon as
some invocation has stepped exactly one invocation has entered the body; the calls recorded
are those of at most one run of the body; and an invocation that finds the flag set leaves
the state as it is. -/
theorem C10_final_report_body_entered_once (level : NMT_TrackingLevel)
    (calls : List NmtCall) (n : Nat) (schedule : List Nat) :
    (∀ (i : Nat) (pc : Pc),
        ((FinalReportRun.init level calls n).run schedule).pcs[i]? = some pc →
        (pc.entered = true ↔ schedule.find? (fun k => decide (k < n)) = some i)) ∧
    ((∃ i ∈ schedule, i < n) →
        ∃! i : Nat, ∃ pc : Pc,
          ((FinalReportRun.init level calls n).run schedule).pcs[i]? = some pc ∧
          pc.entered = true) ∧
    (((FinalReportRun.init level calls n).run schedule).mem.calls = calls ∨
      ((FinalReportRun.init level calls n).run schedule).mem.calls
        = (MemTracker.final_report_body ⟨level, true, calls⟩).calls) ∧
    (∀ s : MemTracker, s.g_final_report_did_run = true → s.final_report = s) := by
  have hinv := FinalReportRun.inv_run level calls n schedule
  obtain ⟨hlen, -, hcase⟩ := hinv
  have h1 : ∀ (i : Nat) (pc : Pc),
      ((FinalReportRun.init level calls n).run schedule).pcs[i]? = some pc →
      (pc.entered = true ↔ schedule.find? (fun k => decide (k < n)) = some i) := by
    intro i pc hpc
    rcases hcase with ⟨hfind, -, -, hall⟩ | ⟨j, hfind, -, hj, hothers⟩
    · have := hall i pc hpc
      subst this
      simp [Pc.entered, hfind]
    · by_cases hij : i = j
      · subst hij
        rcases hj with ⟨hj, -⟩ | ⟨hj, -⟩ <;> rw [hpc] at hj <;> injection hj with hj <;>
          subst hj <;> simp [Pc.entered, hfind]
      · have hne : ¬ j = i := fun h => hij h.symm
        rcases hothers i pc hij hpc with h | h <;> subst h <;> simp [Pc.entered, hfind, hne]
  refine ⟨h1, ?_, ?_, ?_⟩
  · rintro ⟨i, hi, hin⟩
    rcases hcase with ⟨hfind, -, -, -⟩ | ⟨j, hfind, -, hj, -⟩
    · rw [List.find?_eq_none] at hfind
      have := hfind i hi
      simp [hin] at this
    · have hjpc : ∃ pc : Pc,
          ((FinalReportRun.init level calls n).run schedule).pcs[j]? = some pc ∧
          pc.entered = true := by
        rcases hj with ⟨hj, -⟩ | ⟨hj, -⟩
        · exact ⟨_, hj, rfl⟩
        · exact ⟨_, hj, rfl⟩
      refine ⟨j, hjpc, ?_⟩
      rintro k ⟨pc, hk, hent⟩
      have := (h1 k pc hk).mp hent
      rw [hfind] at this
      injection this with this
      exact this.symm
  · rcases hcase with ⟨-, -, hlog, -⟩ | ⟨j, -, -, hj, -⟩
    · exact Or.inl hlog
    · rcases hj with ⟨-, hl⟩ | ⟨-, hl⟩
      · exact Or.inl hl
      · exact Or.inr hl
  · intro s hs
    obtain ⟨lvl, flag, log⟩ := s
    simp only at hs
    subst hs
    simp [MemTracker.final_report, MemTracker.cmpxchg_final_report_did_run]

/-! ## Theorems: `MemTracker::init_tracking_level` -/

/-- Claim C11. Provided `MallocTracker::initialize` and `VirtualMemoryTracker::initialize`
succeed, `init_tracking_level` looks up the key `NMT_LEVEL_<pid>` and returns `summary` for
the value "summary", `detail` for "detail", and `off` for "off" or when the key is unset;
in each of these cases `_is_nmt_env_valid` keeps its value, so that `verify_nmt_option()`
still returns true when it did before. -/
theorem C11_init_tracking_level_valid_values (pid : Int)
    (MallocTracker_init VirtualMemoryTracker_init : NMT_TrackingLevel → Bool)
    (s : NmtLaunch)
    (hM : ∀ l, MallocTracker_init l = true) (hV : ∀ l, VirtualMemoryTracker_init l = true) :
    (getenv s.environ (nmt_env_variable pid) = some "summary" →
      (init_tracking_level pid MallocTracker_init VirtualMemoryTracker_init s).1
          = .NMT_summary ∧
        verify_nmt_option
            (init_tracking_level pid MallocTracker_init VirtualMemoryTracker_init s).2
          = verify_nmt_option s) ∧
    (getenv s.environ (nmt_env_variable pid) = some "detail" →
      (init_tracking_level pid MallocTracker_init VirtualMemoryTracker_init s).1
          = .NMT_detail ∧
        verify_nmt_option
            (init_tracking_level pid MallocTracker_init VirtualMemoryTracker_init s).2
          = verify_nmt_option s) ∧
    (getenv s.environ (nmt_env_variable pid) = some "off" ∨
        getenv s.environ (nmt_env_variable pid) = none →
      (init_tracking_level pid MallocTracker_init VirtualMemoryTracker_init s).1
          = .NMT_off ∧
        verify_nmt_option
            (init_tracking_level pid MallocTracker_init VirtualMemoryTracker_init s).2
          = verify_nmt_option s) := by
  refine ⟨?_, ?_, ?_⟩
  · intro h
    simp [init_tracking_level, verify_nmt_option, h, hM, hV]
  · intro h
    have hne : ("detail" : String) ≠ "summary" := by decide
    simp [init_tracking_level, verify_nmt_option, h, hM, hV, hne]
  · rintro (h | h)
    · have h1 : ("off" : String) ≠ "summary" := by decide
      have h2 : ("off" : String) ≠ "detail" := by decide
      simp [init_tracking_level, verify_nmt_option, h, hM, hV, h1, h2]
    · simp [init_tracking_level, verify_nmt_option, h, hM, hV]

/-- Claim C11 at a concrete input: process 4242 with `NMT_LEVEL_4242=detail`. -/
theorem C11_init_tracking_level_witness :
    (init_tracking_level 4242 (fun _ => true) (fun _ => true)
        ⟨true, [("HOME", "/root"), ("NMT_LEVEL_4242", "detail")]⟩).1 = .NMT_detail ∧
      verify_nmt_option
          (init_tracking_level 4242 (fun _ => true) (fun _ => true)
            ⟨true, [("HOME", "/root"), ("NMT_LEVEL_4242", "detail")]⟩).2
        = verify_nmt_option ⟨true, [("HOME", "/root"), ("NMT_LEVEL_4242", "detail")]⟩ :=
  (C11_init_tracking_level_valid_values 4242 (fun _ => true) (fun _ => true)
    ⟨true, [("HOME", "/root"), ("NMT_LEVEL_4242", "detail")]⟩
    (fun _ => rfl) (fun _ => rfl)).2.1 (by decide)

/-- Claim C12. For a value of the key other than "off", "summary" and "detail",
`init_tracking_level` returns `off`, whatever the two initialisers answer, clears
`_is_nmt_env_valid` and removes the key from the environment; `verify_nmt_option()` then
returns false. The function has no failing path: it is total. -/
theorem C12_init_tracking_level_invalid_value (pid : Int)
    (MallocTracker_init VirtualMemoryTracker_init : NMT_TrackingLevel → Bool)
    (s : NmtLaunch) (value : String)
    (hget : getenv s.environ (nmt_env_variable pid) = some value)
    (hoff : value ≠ "off") (hsum : value ≠ "summary") (hdet : value ≠ "detail") :
    init_tracking_level pid MallocTracker_init VirtualMemoryTracker_init s
        = (.NMT_off,
            { _is_nmt_env_valid := false,
              environ := unsetenv s.environ (nmt_env_variable pid) }) ∧
      verify_nmt_option
          (init_tracking_level pid MallocTracker_init VirtualMemoryTracker_init s).2
        = false := by
  have h : init_tracking_level pid MallocTracker_init VirtualMemoryTracker_init s
      = (.NMT_off,
          { _is_nmt_env_valid := false,
            environ := unsetenv s.environ (nmt_env_variable pid) }) := by
    simp only [init_tracking_level, hget, hoff, hsum, hdet, if_false, ne_eq, not_false_eq_true,
      if_true]
    split <;> rfl
  rw [h]
  exact ⟨rfl, rfl⟩

/-- Claim C12 at a concrete input: the value "minimal", with both initialisers succeeding. -/
theorem C12_init_tracking_level_invalid_witness :
    init_tracking_level 4242 (fun _ => true) (fun _ => true)
        ⟨true, [("NMT_LEVEL_4242", "minimal")]⟩
        = (.NMT_off,
            { _is_nmt_env_valid := false,
              environ := unsetenv [("NMT_LEVEL_4242", "minimal")] (nmt_env_variable 4242) }) ∧
      verify_nmt_option
          (init_tracking_level 4242 (fun _ => true) (fun _ => true)
            ⟨true, [("NMT_LEVEL_4242", "minimal")]⟩).2
        = false :=
  C12_init_tracking_level_invalid_value 4242 (fun _ => true) (fun _ => true)
    ⟨true, [("NMT_LEVEL_4242", "minimal")]⟩ "minimal" (by decide) (by decide) (by decide)
    (by decide)

/-! ## Theorems: address space -/

/-- Rounding a page multiple up to whole pages leaves it as it is. -/
theorem roundUp_of_dvd (page n : Nat) (hp : 0 < page) (h : page ∣ n) : roundUp page n = n := by
  obtain ⟨k, rfl⟩ := h
  unfold roundUp
  have h1 : page * k + page - 1 = (page - 1) + page * k := by omega
  have h2 : (page - 1) / page = 0 := Nat.div_eq_of_lt (by omega)
  rw [h1, Nat.add_mul_div_left _ _ hp, h2, Nat.zero_add, Nat.mul_comm]

/-- Unmapping a range that was mapped over free addresses restores the mappings. -/
theorem unmapRange_mapRange (space : AddrSpace) (b len : Nat) (prot : Prot)
    (hfree : ∀ a, b ≤ a → a < b + len → space a = none) :
    unmapRange (mapRange space b len prot) b len = space := by
  funext a
  unfold unmapRange mapRange
  by_cases h : b ≤ a ∧ a < b + len
  · simp [h, hfree a h.1 h.2]
  · simp [h]

/-- Claim C13. Let the kernel answer the `mmap` of a commit request within its contract.
Then `commit_memory_impl(addr, bytes, exec)` returns 0 exactly when the `mmap` placed the
mapping; when the `mmap` fails with `EBADF`, `EINVAL` or `ENOTSUP` it returns that errno
and `pd_commit_memory` returns false; for every other errno it does not return: the VM
exits through `vm_exit_out_of_memory`, and so does `pd_commit_memory`. -/
theorem C13_commit_error_taxonomy (flags : VmFlags) (os : OsState) (ans : MmapAnswer)
    (addr bytes : Nat) (exec : Bool)
    (hleg : ans.legal os addr bytes { MAP_FIXED := true, MAP_NORESERVE := false }) :
    ((∃ os1, commit_memory_impl flags os ans addr bytes exec = .ok (0, os1)) ↔
        ∃ b, ans = .placed b) ∧
    (∀ err, ans = .MAP_FAILED err → (err = EBADF ∨ err = EINVAL ∨ err = ENOTSUP) →
      ∃ os1, commit_memory_impl flags os ans addr bytes exec = .ok (err, os1) ∧
        pd_commit_memory flags os ans addr bytes exec = .ok (false, os1)) ∧
    (∀ err, ans = .MAP_FAILED err → err ≠ EBADF → err ≠ EINVAL → err ≠ ENOTSUP →
      commit_memory_impl flags os ans addr bytes exec = .error "vm_exit_out_of_memory" ∧
        pd_commit_memory flags os ans addr bytes exec = .error "vm_exit_out_of_memory") := by
  cases ans with
  | placed b =>
    obtain ⟨-, hb0, hbal, hfix⟩ := hleg
    simp only [if_true] at hfix
    subst hfix
    refine ⟨⟨fun _ => ⟨b, rfl⟩, fun _ => ?_⟩, ?_, ?_⟩
    · by_cases hn : flags.UseNUMAInterleaving = true
      · refine ⟨{ os with
            space := mapRange os.space b (roundUp os.page bytes)
              (if exec then Prot.PROT_READ_WRITE_EXEC else Prot.PROT_READ_WRITE),
            calls := (os.calls ++ [.mmap b bytes
              (if exec then Prot.PROT_READ_WRITE_EXEC else Prot.PROT_READ_WRITE)
              { MAP_FIXED := true, MAP_NORESERVE := false }]) ++
              [.posix_madvise_ACCESS_MANY b bytes] }, ?_⟩
        simp [commit_memory_impl, mmap_chunk, OsState.mmap, hb0, hn, numa_make_global, hbal]
      · refine ⟨{ os with
            space := mapRange os.space b (roundUp os.page bytes)
              (if exec then Prot.PROT_READ_WRITE_EXEC else Prot.PROT_READ_WRITE),
            calls := os.calls ++ [.mmap b bytes
              (if exec then Prot.PROT_READ_WRITE_EXEC else Prot.PROT_READ_WRITE)
              { MAP_FIXED := true, MAP_NORESERVE := false }] }, ?_⟩
        simp [commit_memory_impl, mmap_chunk, OsState.mmap, hb0, hn]
    · intro err h
      cases h
    · intro err h
      cases h
  | MAP_FAILED e =>
    refine ⟨⟨?_, ?_⟩, ?_, ?_⟩
    · rintro ⟨os1, h⟩
      exfalso
      simp only [commit_memory_impl, mmap_chunk, OsState.mmap] at h
      simp at h
      split at h
      · cases h
      · injection h with h
        injection h with h1 h2
        subst h1
        rename_i hrec
        simp [recoverable_mmap_error, EBADF, EINVAL, ENOTSUP] at hrec
    · rintro ⟨b, h⟩
      cases h
    · intro err h hrec
      injection h with h
      subst h
      refine ⟨{ os with errno := e, calls := os.calls ++ [.mmap addr bytes
          (if exec then Prot.PROT_READ_WRITE_EXEC else Prot.PROT_READ_WRITE)
          { MAP_FIXED := true, MAP_NORESERVE := false }] }, ?_⟩
      have hr : recoverable_mmap_error e = true := by
        rcases hrec with h | h | h <;> subst h <;> decide
      have he0 : e ≠ 0 := by
        rcases hrec with h | h | h <;> subst h <;> decide
      simp [pd_commit_memory, commit_memory_impl, mmap_chunk, OsState.mmap, hr, he0]
    · intro err h h1 h2 h3
      injection h with h
      subst h
      have hr : recoverable_mmap_error e = false := by
        simp [recoverable_mmap_error, h1, h2, h3]
      simp [pd_commit_memory, commit_memory_impl, mmap_chunk, OsState.mmap, hr]

/-- Claim C13 at a concrete input: the `mmap` fails with `EINVAL`. -/
theorem C13_commit_error_taxonomy_witness :
    ∃ os1, commit_memory_impl ⟨true, false, false⟩ ⟨4096, fun _ => none, 0, []⟩
          (.MAP_FAILED 22) 8192 4096 false = .ok (22, os1) ∧
        pd_commit_memory ⟨true, false, false⟩ ⟨4096, fun _ => none, 0, []⟩
          (.MAP_FAILED 22) 8192 4096 false = .ok (false, os1) :=
  (C13_commit_error_taxonomy ⟨true, false, false⟩ ⟨4096, fun _ => none, 0, []⟩
    (.MAP_FAILED 22) 8192 4096 false (by simp [MmapAnswer.legal])).2.1 22 rfl
    (Or.inr (Or.inl rfl))

/-- Claim C14. Let the kernel answer the `mmap` of `pd_attempt_reserve_memory_at` within
its contract, for a size that is a multiple of the page size. If it placed the mapping at
the requested address the call returns that address and the range is mapped `PROT_NONE`.
Otherwise the call returns `NULL` and the mappings are those from before the call: when the
kernel had placed the mapping elsewhere, `munmap` was called on that address with the same
size. Hence, for a requested address other than `NULL`, the call returns the requested
address exactly when the kernel placed the mapping there. -/
theorem C14_attempt_reserve_exact_or_nothing (debug : Bool) (os : OsState) (ans : MmapAnswer)
    (requested_addr bytes : Nat) (exec : Bool)
    (hpage : 0 < os.page) (hbytes : os.page ∣ bytes)
    (hleg : ans.legal os requested_addr bytes { MAP_FIXED := false, MAP_NORESERVE := true }) :
    (ans = .placed requested_addr →
      ∃ os1, pd_attempt_reserve_memory_at debug os ans requested_addr bytes exec
          = .ok (requested_addr, os1) ∧
        os1.space = mapRange os.space requested_addr bytes .PROT_NONE) ∧
    (ans ≠ .placed requested_addr →
      ∃ os1, pd_attempt_reserve_memory_at debug os ans requested_addr bytes exec
          = .ok (0, os1) ∧
        os1.space = os.space ∧
        ∀ b, ans = .placed b → OsCall.munmap b bytes ∈ os1.calls) ∧
    (requested_addr ≠ 0 →
      ((∃ os1, pd_attempt_reserve_memory_at debug os ans requested_addr bytes exec
          = .ok (requested_addr, os1)) ↔ ans = .placed requested_addr)) := by
  have hmod : bytes % os.page = 0 := Nat.mod_eq_zero_of_dvd hbytes
  have hround : roundUp os.page bytes = bytes := roundUp_of_dvd _ _ hpage hbytes
  have hA : ans = .placed requested_addr →
      ∃ os1, pd_attempt_reserve_memory_at debug os ans requested_addr bytes exec
          = .ok (requested_addr, os1) ∧
        os1.space = mapRange os.space requested_addr bytes .PROT_NONE := by
    intro h
    subst h
    refine ⟨{ os with
        space := mapRange os.space requested_addr (roundUp os.page bytes) .PROT_NONE,
        calls := os.calls ++ [.mmap requested_addr bytes .PROT_NONE
          { MAP_FIXED := false, MAP_NORESERVE := true }] }, ?_, ?_⟩
    · simp [pd_attempt_reserve_memory_at, anon_mmap, mmap_chunk, OsState.mmap, hmod]
    · simp [hround]
  have hB : ans ≠ .placed requested_addr →
      ∃ os1, pd_attempt_reserve_memory_at debug os ans requested_addr bytes exec
          = .ok (0, os1) ∧
        os1.space = os.space ∧
        ∀ b, ans = .placed b → OsCall.munmap b bytes ∈ os1.calls := by
    intro hne
    cases ans with
    | placed b =>
      have hbr : b ≠ requested_addr := fun h => hne (by rw [h])
      obtain ⟨hsz, hb0, hbal, hfree⟩ := hleg
      simp only [Bool.false_eq_true, if_false] at hfree
      have hlen : bytes ≠ 0 := by omega
      refine ⟨{ os with
          space := unmapRange (mapRange os.space b (roundUp os.page bytes) .PROT_NONE) b
            (roundUp os.page bytes),
          calls := (os.calls ++ [.mmap requested_addr bytes .PROT_NONE
            { MAP_FIXED := false, MAP_NORESERVE := true }]) ++ [.munmap b bytes] }, ?_, ?_, ?_⟩
      · simp [pd_attempt_reserve_memory_at, anon_mmap, mmap_chunk, OsState.mmap, hmod, hbr, hb0,
          pd_unmap_memory, OsState.munmap, hlen, hbal]
      · exact unmapRange_mapRange os.space b (roundUp os.page bytes) .PROT_NONE hfree
      · intro b2 hb2
        injection hb2 with hb2
        subst hb2
        simp
    | MAP_FAILED e =>
      refine ⟨{ os with
          errno := e,
          calls := os.calls ++ [.mmap requested_addr bytes .PROT_NONE
            { MAP_FIXED := false, MAP_NORESERVE := true }] }, ?_, rfl, ?_⟩
      · by_cases hr : requested_addr = 0
        · subst hr
          simp [pd_attempt_reserve_memory_at, anon_mmap, mmap_chunk, OsState.mmap, hmod]
        · have hr2 : ¬ (0 = requested_addr) := fun h => hr h.symm
          simp [pd_attempt_reserve_memory_at, anon_mmap, mmap_chunk, OsState.mmap, hmod, hr2]
      · intro b hb
        cases hb
  refine ⟨hA, hB, ?_⟩
  intro hr
  constructor
  · rintro ⟨os1, h⟩
    by_contra hne
    obtain ⟨os2, h2, -⟩ := hB hne
    rw [h2] at h
    injection h with h
    injection h with h1 h3
    exact hr h1.symm
  · intro h
    obtain ⟨os1, h1, -⟩ := hA h
    exact ⟨os1, h1⟩

/-- Claim C14 at a concrete input: the kernel places the 8 KiB mapping at 0x20000 although
0x10000 was requested; the call returns `NULL` and the mappings are as before. -/
theorem C14_attempt_reserve_witness :
    ∃ os1, pd_attempt_reserve_memory_at true ⟨4096, fun _ => none, 0, []⟩ (.placed 131072)
          65536 8192 false = .ok (0, os1) ∧
        os1.space = (fun _ => none) ∧
        ∀ b, MmapAnswer.placed 131072 = .placed b → OsCall.munmap b 8192 ∈ os1.calls :=
  (C14_attempt_reserve_exact_or_nothing true ⟨4096, fun _ => none, 0, []⟩ (.placed 131072)
    65536 8192 false (by decide) ⟨2, rfl⟩
    ⟨by decide, by decide, by decide, fun _ _ _ => rfl⟩).2.1 (by decide)

/-- Claim C15, the code at the failing input. With the table `4096, 2097152` that
`getpagesizes` reports (the remaining slots zero) and the alignment 2097152, the scan
returns at the first entry dividing the alignment: the result is 4096 in either build,
although 2097152 is a supported size, divides the alignment and is larger. -/
theorem C15_page_size_for_alignment_first_match :
    page_size_for_alignment false 4096 [4096, 2097152, 0, 0, 0, 0, 0, 0, 0] 2097152
        = .ok 4096 ∧
      page_size_for_alignment true 4096 [4096, 2097152, 0, 0, 0, 0, 0, 0, 0] 2097152
        = .ok 4096 ∧
      2097152 ∈ [4096, 2097152, 0, 0, 0, 0, 0, 0, 0] ∧ is_aligned 2097152 2097152 = true := by
  refine ⟨rfl, rfl, by decide, by decide⟩

/-- Claim C16. The alignment-hint variant of `commit_memory_impl` never changes the error
code: whenever it returns, the plain `commit_memory_impl` returned the same code; when the
plain one exits the VM so does the variant; and in a product build, when the scan of the
page-size table ends inside the array, the variant returns whenever the plain one does,
with the same code, whatever `memcntl` answers. -/
theorem C16_commit_with_hint_same_code (flags : VmFlags) (table _page_sizes : List Nat)
    (memcntl_rslt : Int) (os : OsState) (ans : MmapAnswer)
    (addr bytes alignment_hint : Nat) (exec : Bool) :
    (∀ err os2,
      commit_memory_impl_alignment_hint flags table _page_sizes memcntl_rslt os ans addr bytes
          alignment_hint exec = .ok (err, os2) →
      ∃ os1, commit_memory_impl flags os ans addr bytes exec = .ok (err, os1)) ∧
    (∀ msg, commit_memory_impl flags os ans addr bytes exec = .error msg →
      commit_memory_impl_alignment_hint flags table _page_sizes memcntl_rslt os ans addr bytes
          alignment_hint exec = .error msg) ∧
    (flags.debug = false → scan_page_sizes alignment_hint table ≠ .overrun →
      ∀ err os1, commit_memory_impl flags os ans addr bytes exec = .ok (err, os1) →
      ∃ os2, commit_memory_impl_alignment_hint flags table _page_sizes memcntl_rslt os ans
          addr bytes alignment_hint exec = .ok (err, os2)) := by
  refine ⟨?_, ?_, ?_⟩
  · intro err os2 h
    unfold commit_memory_impl_alignment_hint at h
    cases hc : commit_memory_impl flags os ans addr bytes exec with
    | error msg =>
      rw [hc] at h
      cases h
    | ok r =>
      obtain ⟨e1, os1⟩ := r
      rw [hc] at h
      refine ⟨os1, ?_⟩
      simp only at h
      split at h
      · split at h
        · cases h
        · split at h
          · cases h
          · split at h
            · split at h
              · cases h
              · injection h with h
                injection h with h1 h2
                rw [h1]
            · injection h with h
              injection h with h1 h2
              rw [h1]
      · injection h with h
        injection h with h1 h2
        rw [h1]
  · intro msg h
    simp [commit_memory_impl_alignment_hint, h]
  · intro hd hscan err os1 h
    simp only [commit_memory_impl_alignment_hint, h, hd]
    by_cases hcond : (err == 0 && flags.UseLargePages && decide (alignment_hint > 0)) = true
    · simp only [hcond, if_true, Bool.false_and, Bool.false_eq_true, if_false,
        page_size_for_alignment, setup_large_pages]
      cases hs : scan_page_sizes alignment_hint table with
      | found p =>
        simp only
        by_cases hp : p > os1.page
        · exact ⟨{ os1 with
              calls := os1.calls ++ [.memcntl_HAT_ADVISE addr bytes p] }, by simp [hp]⟩
        · exact ⟨os1, by simp [hp]⟩
      | terminator => exact ⟨os1, by simp⟩
      | overrun => exact absurd hs hscan
    · exact ⟨os1, by simp [hcond]⟩

/-- Claim C17. Let the kernel answer the `mmap` of `os::pd_reserve_memory(size)` within its
contract, for a positive size that is a multiple of the page size. When the reservation
returns a base other than `NULL`, it has mapped exactly `[base, base + size)`, and
`os::pd_release_memory(base, size)` succeeds and leaves the mappings equal to those from
before the reservation. -/
theorem C17_reserve_then_release_restores (os : OsState) (ans : MmapAnswer) (size : Nat)
    (exec : Bool) (hpage : 0 < os.page) (hsize : 0 < size) (hmult : os.page ∣ size)
    (hleg : ans.legal os 0 size { MAP_FIXED := false, MAP_NORESERVE := true })
    (hbase : (pd_reserve_memory os ans size exec).1 ≠ 0) :
    (pd_reserve_memory os ans size exec).2.space
        = mapRange os.space (pd_reserve_memory os ans size exec).1 size .PROT_NONE ∧
      (pd_release_memory (pd_reserve_memory os ans size exec).2
          (pd_reserve_memory os ans size exec).1 size).1 = true ∧
      (pd_release_memory (pd_reserve_memory os ans size exec).2
          (pd_reserve_memory os ans size exec).1 size).2.space = os.space := by
  have hround : roundUp os.page size = size := roundUp_of_dvd _ _ hpage hmult
  cases ans with
  | MAP_FAILED e =>
    exfalso
    apply hbase
    simp [pd_reserve_memory, anon_mmap, mmap_chunk, OsState.mmap]
  | placed b =>
    obtain ⟨-, hb0, hbal, hfree⟩ := hleg
    simp only [Bool.false_eq_true, if_false] at hfree
    have hlen : size ≠ 0 := by omega
    refine ⟨?_, ?_, ?_⟩
    · simp [pd_reserve_memory, anon_mmap, mmap_chunk, OsState.mmap, hround]
    · simp [pd_reserve_memory, anon_mmap, mmap_chunk, OsState.mmap, pd_release_memory,
        OsState.munmap, hlen, hbal]
    · simp only [pd_reserve_memory, anon_mmap, mmap_chunk, OsState.mmap, pd_release_memory,
        OsState.munmap]
      simp [hlen, hbal]
      exact unmapRange_mapRange os.space b (roundUp os.page size) .PROT_NONE hfree

/-- Claim C17 at a concrete input: a 16 KiB reservation placed at 0x40000 in an empty
address space. -/
theorem C17_reserve_then_release_witness :
    (pd_reserve_memory ⟨4096, fun _ => none, 0, []⟩ (.placed 262144) 16384 false).2.space
        = mapRange (fun _ => none)
            (pd_reserve_memory ⟨4096, fun _ => none, 0, []⟩ (.placed 262144) 16384 false).1
            16384 .PROT_NONE ∧
      (pd_release_memory
          (pd_reserve_memory ⟨4096, fun _ => none, 0, []⟩ (.placed 262144) 16384 false).2
          (pd_reserve_memory ⟨4096, fun _ => none, 0, []⟩ (.placed 262144) 16384 false).1
          16384).1 = true ∧
      (pd_release_memory
          (pd_reserve_memory ⟨4096, fun _ => none, 0, []⟩ (.placed 262144) 16384 false).2
          (pd_reserve_memory ⟨4096, fun _ => none, 0, []⟩ (.placed 262144) 16384 false).1
          16384).2.space = (fun _ => none) :=
  C17_reserve_then_release_restores ⟨4096, fun _ => none, 0, []⟩ (.placed 262144) 16384 false
    (by decide) (by decide) ⟨4, rfl⟩ ⟨by decide, by decide, by decide, fun _ _ _ => rfl⟩
    (by decide)

/-! ## Theorems: native thread priorities -/

/-- A value inside the `int` range is not changed by the 32-bit wrap. -/
theorem wrap32_of_range (y : Int) (h1 : -2 ^ 31 ≤ y) (h2 : y < 2 ^ 31) : wrap32 y = y := by
  unfold wrap32
  norm_num at h1 h2 ⊢
  omega

/-- Where the `int` arithmetic of `scale_to_lwp_priority` does not overflow, the function
computes `x * (rMax - rMin) / 128 + rMin`. -/
theorem scale_to_lwp_priority_exact (rMin rMax x : Int) (hx : x ≠ 127) (hx0 : 0 ≤ x)
    (hle : rMin ≤ rMax) (hmin : -2 ^ 31 ≤ rMin)
    (hwidth : rMax - rMin < 2 ^ 31) (hspan : x * (rMax - rMin) < 2 ^ 31)
    (hres : x * (rMax - rMin) / 128 + rMin < 2 ^ 31) :
    scale_to_lwp_priority rMin rMax x = x * (rMax - rMin) / 128 + rMin := by
  have hd0 : 0 ≤ rMax - rMin := by omega
  have hd : wrap32 (rMax - rMin) = rMax - rMin :=
    wrap32_of_range _ (by norm_num; omega) hwidth
  have hp0 : 0 ≤ x * (rMax - rMin) := mul_nonneg hx0 hd0
  have hp : wrap32 (x * (rMax - rMin)) = x * (rMax - rMin) :=
    wrap32_of_range _ (by norm_num; omega) hspan
  have hq0 : 0 ≤ x * (rMax - rMin) / 128 := Int.ediv_nonneg hp0 (by norm_num)
  unfold scale_to_lwp_priority
  rw [if_neg hx, hd, hp, Int.tdiv_eq_ediv hp0 (by norm_num)]
  exact wrap32_of_range _ (by norm_num at hmin ⊢; omega) hres

/-- Claim C18, as stated, fails above 128: in the class range 0..60 the request 256 is
mapped to 120, twice the class maximum. -/
theorem C18_no_clamp_counterexample :
    scale_to_lwp_priority 0 60 256 = 120 ∧ ¬ scale_to_lwp_priority 0 60 256 = 60 := by
  constructor <;> decide

/-- Claim C18, amended. For every scheduling-class range `rMin ≤ rMax` whose span does not
overflow the `int` arithmetic, a request of 127, the maximum of the native scale, or of 128
is mapped to `rMax`. (Larger requests are not clamped.) -/
theorem C18_scale_at_scale_maximum (rMin rMax x : Int) (hle : rMin ≤ rMax)
    (hmin : -2 ^ 31 ≤ rMin) (hmax : rMax < 2 ^ 31) (hspan : 128 * (rMax - rMin) < 2 ^ 31)
    (hx : x = 127 ∨ x = 128) :
    scale_to_lwp_priority rMin rMax x = rMax := by
  rcases hx with rfl | rfl
  · simp [scale_to_lwp_priority]
  · have hq : 128 * (rMax - rMin) / 128 = rMax - rMin :=
      Int.mul_ediv_cancel_left _ (by norm_num)
    rw [scale_to_lwp_priority_exact rMin rMax 128 (by norm_num) (by norm_num) hle hmin
      (by norm_num at hspan ⊢; omega) hspan (by rw [hq]; omega), hq]
    omega

/-- Claim C18, amended, at a concrete input: 128 in the range -60..60. -/
theorem C18_scale_at_scale_maximum_witness : scale_to_lwp_priority (-60) 60 128 = 60 :=
  C18_scale_at_scale_maximum (-60) 60 128 (by decide) (by decide) (by decide) (by decide)
    (Or.inr rfl)

/-- Claim C19. For every scheduling-class range `rMin ≤ rMax` whose span does not overflow
the `int` arithmetic (every range of `pri_t` values qualifies) and every native priority
`0 ≤ x ≤ 127`, the scaled priority lies in `[rMin, rMax]`; 0 is mapped to `rMin` and 127
to `rMax`. -/
theorem C19_scale_within_class_range (rMin rMax x : Int) (hle : rMin ≤ rMax)
    (hmin : -2 ^ 31 ≤ rMin) (hmax : rMax < 2 ^ 31) (hspan : 127 * (rMax - rMin) < 2 ^ 31)
    (hx0 : 0 ≤ x) (hx1 : x ≤ 127) :
    (rMin ≤ scale_to_lwp_priority rMin rMax x ∧ scale_to_lwp_priority rMin rMax x ≤ rMax) ∧
      scale_to_lwp_priority rMin rMax 0 = rMin ∧
      scale_to_lwp_priority rMin rMax 127 = rMax := by
  have hd0 : 0 ≤ rMax - rMin := by omega
  have key : ∀ y : Int, 0 ≤ y → y ≤ 127 →
      rMin ≤ scale_to_lwp_priority rMin rMax y ∧ scale_to_lwp_priority rMin rMax y ≤ rMax ∧
        (y ≠ 127 → scale_to_lwp_priority rMin rMax y = y * (rMax - rMin) / 128 + rMin) := by
    intro y hy0 hy1
    by_cases hy : y = 127
    · subst hy
      simp [scale_to_lwp_priority, hle]
    · have hp0 : 0 ≤ y * (rMax - rMin) := mul_nonneg hy0 hd0
      have hp1 : y * (rMax - rMin) ≤ 127 * (rMax - rMin) :=
        mul_le_mul_of_nonneg_right hy1 hd0
      have hq0 : 0 ≤ y * (rMax - rMin) / 128 := Int.ediv_nonneg hp0 (by norm_num)
      have hq1 : y * (rMax - rMin) / 128 ≤ rMax - rMin := by
        have : y * (rMax - rMin) / 128 ≤ 127 * (rMax - rMin) / 128 :=
          Int.ediv_le_ediv (by norm_num) hp1
        omega
      have hex := scale_to_lwp_priority_exact rMin rMax y hy hy0 hle hmin
        (by norm_num at hspan ⊢; omega) (by omega) (by norm_num at hmax ⊢; omega)
      rw [hex]
      exact ⟨by omega, by omega, fun _ => rfl⟩
  refine ⟨⟨(key x hx0 hx1).1, (key x hx0 hx1).2.1⟩, ?_, ?_⟩
  · rw [(key 0 (le_refl _) (by norm_num)).2.2 (by norm_num)]
    simp
  · simp [scale_to_lwp_priority]

/-- Claim C19 at a concrete input: priority 64 in the time-share range -60..60. -/
theorem C19_scale_within_class_range_witness :
    ((-60 : Int) ≤ scale_to_lwp_priority (-60) 60 64 ∧
        scale_to_lwp_priority (-60) 60 64 ≤ 60) ∧
      scale_to_lwp_priority (-60) 60 0 = -60 ∧
      scale_to_lwp_priority (-60) 60 127 = 60 :=
  C19_scale_within_class_range (-60) 60 64 (by decide) (by decide) (by decide) (by decide)
    (by decide) (by decide)

/-- With the lwp id not yet known, `set_lwp_class_and_priority` makes no `priocntl` call: it
returns `EINVAL` when `priocntl_enable` is off and 0 otherwise. -/
theorem set_lwp_class_and_priority_deferred (debug : Bool) (g : PrioGlobals)
    (k : PriocntlAnswers) (ThreadID lwpid newPrio new_class : Int) (scale : Bool)
    (h : lwpid ≤ 0) :
    set_lwp_class_and_priority debug g k ThreadID lwpid newPrio new_class scale
      = .ok (if g.priocntl_enable = true then 0 else EINVAL, []) := by
  unfold set_lwp_class_and_priority
  by_cases he : g.priocntl_enable = true
  · simp [he, h]
  · simp [he]

/-- Claim C20, as stated, fails when `lwp_priocntl_init` did not enable priority changes:
with `priocntl_enable` off and the lwp id still -1, `set_lwp_class_and_priority` returns
`EINVAL` (22), not 0. -/
theorem C20_deferred_not_success_counterexample :
    set_lwp_class_and_priority false
        { tsLimits := ⟨1, 60, -60⟩, iaLimits := ⟨2, 60, -60⟩, rtLimits := ⟨3, 59, 0⟩,
          fxLimits := ⟨4, 60, 0⟩, myClass := 1, priocntl_enable := false, criticalPrio := 60,
          java_MaxPriority_to_os_priority := 127, UseThreadPriorities := true }
        ⟨0, 0, 1, 60, 0, 0, 0, 1⟩ 5 (-1) 64 1 true
      = .ok (22, []) := by
  rfl

/-- Claim C20, amended. While the lwp id of the thread is not yet known (`lwp_id ≤ 0`):
`os::set_native_priority` stores the requested value in `native_priority`, whatever else it
does, and `thread_native_entry` later calls `os::set_native_priority` again with that
value; `set_lwp_class_and_priority` issues no `priocntl` call and returns 0 when
`priocntl_enable` is on, `EINVAL` when it is off; every scheduler call made by
`os::set_native_priority` is a `thr_setprio`. -/
theorem C20_priority_request_before_lwp_id (debug : Bool) (g : PrioGlobals)
    (thr_status : Int) (k1 k2 : PriocntlAnswers) (osthread : OSThread)
    (newpri newPrio new_class lwp_self : Int) (scale : Bool)
    (h : osthread.lwp_id ≤ 0) :
    (set_native_priority debug g thr_status k1 k2 osthread newpri).osthread
        = { osthread with native_priority := newpri } ∧
    set_lwp_class_and_priority debug g k1 osthread.thread_id osthread.lwp_id newPrio
        new_class scale
      = .ok (if g.priocntl_enable = true then 0 else EINVAL, []) ∧
    (∀ c ∈ (set_native_priority debug g thr_status k1 k2 osthread newpri).calls,
      ∃ tid pri, c = .thr_setprio tid pri) ∧
    (osthread.thread_id ≠ -1 → g.UseThreadPriorities = true →
      thread_native_entry_priority debug g thr_status k1 k2 lwp_self
          (set_native_priority debug g thr_status k1 k2 osthread newpri).osthread
        = set_native_priority debug g thr_status k1 k2
            { osthread with native_priority := newpri, lwp_id := lwp_self } newpri) := by
  have hstore : (set_native_priority debug g thr_status k1 k2 osthread newpri).osthread
      = { osthread with native_priority := newpri } := by
    unfold set_native_priority
    simp only [set_lwp_class_and_priority_deferred _ _ _ _ _ _ _ _ h]
    split_ifs <;> rfl
  refine ⟨hstore, set_lwp_class_and_priority_deferred _ _ _ _ _ _ _ _ h, ?_, ?_⟩
  · intro c hc
    unfold set_native_priority at hc
    simp only [set_lwp_class_and_priority_deferred _ _ _ _ _ _ _ _ h] at hc
    split_ifs at hc <;> simp [PrioOutcome.calls] at hc <;> exact ⟨_, _, hc⟩
  · intro htid huse
    rw [hstore]
    simp [thread_native_entry_priority, htid, huse]

/-- Claim C20, amended, at a concrete input: a request for priority 64 on a thread whose lwp
id is still -1, priority changes enabled. -/
theorem C20_priority_request_before_lwp_id_witness :
    (set_native_priority true
        { tsLimits := ⟨1, 60, -60⟩, iaLimits := ⟨2, 60, -60⟩, rtLimits := ⟨3, 59, 0⟩,
          fxLimits := ⟨4, 60, 0⟩, myClass := 1, priocntl_enable := true, criticalPrio := 60,
          java_MaxPriority_to_os_priority := 127, UseThreadPriorities := true }
        0 ⟨0, 0, 1, 60, 0, 0, 0, 1⟩ ⟨0, 0, 1, 60, 0, 0, 0, 1⟩ ⟨5, -1, 127⟩ 64).osthread
      = { thread_id := 5, lwp_id := -1, native_priority := 64 } :=
  (C20_priority_request_before_lwp_id true
    { tsLimits := ⟨1, 60, -60⟩, iaLimits := ⟨2, 60, -60⟩, rtLimits := ⟨3, 59, 0⟩,
      fxLimits := ⟨4, 60, 0⟩, myClass := 1, priocntl_enable := true, criticalPrio := 60,
      java_MaxPriority_to_os_priority := 127, UseThreadPriorities := true }
    0 ⟨0, 0, 1, 60, 0, 0, 0, 1⟩ ⟨0, 0, 1, 60, 0, 0, 0, 1⟩ ⟨5, -1, 127⟩ 64 64 1 9 true
    (by decide)).1

/-! ## Theorems: critical priority, time, wake-ups -/

/-- Claim C21, the code at the failing input. The process runs in the time-share class
(class 1, bounds -60..60) and the saved mapping of `MaxPriority` is 127. A critical request
whose switch to the `FX` class (class 4) is rejected is retried once in class 1 with
`scale` false, so the retry submits the unscaled 127: outside the class bounds, where the
scaled value, the class maximum, is 60. The call returns `OS_OK` when the retry succeeds. -/
theorem C21_critical_retry_submits_unscaled :
    set_native_priority false
        { tsLimits := ⟨1, 60, -60⟩, iaLimits := ⟨2, 60, -60⟩, rtLimits := ⟨3, 59, 0⟩,
          fxLimits := ⟨4, 60, 0⟩, myClass := 1, priocntl_enable := true, criticalPrio := 60,
          java_MaxPriority_to_os_priority := 127, UseThreadPriorities := true }
        0 ⟨0, 0, 1, 60, -1, 1, 0, 1⟩ ⟨0, 0, 1, 60, 0, 0, 0, 1⟩ ⟨5, 7, 127⟩ (-60)
      = .returned .OS_OK ⟨5, 7, -60⟩
          [.PC_GETPARMS 7, .PC_SETPARMS 7 4 60 (some (.value 60)),
           .PC_GETPARMS 7, .PC_SETPARMS 7 1 127 (some .NOCHANGE)] ∧
      scale_to_lwp_priority (-60) 60 127 = 60 ∧ ¬ ((127 : Int) ≤ 60) := by
  decide

/-- The 64-bit wrap leaves a value inside the `long` range as it is. -/
theorem wrap64_of_range (y : Int) (h1 : -2 ^ 63 ≤ y) (h2 : y < 2 ^ 63) : wrap64 y = y := by
  unfold wrap64
  norm_num at h1 h2 ⊢
  omega

/-- Claim C23. For every `time > 0` that fits a `jlong`, either mode, and every clock
reading with `tv_sec ≥ 0`, `0 ≤ tv_usec < 1000000` and `tv_sec + 100000000` inside the range
of `time_t`, `unpackTime` produces a deadline with `0 ≤ tv_sec ≤ now.tv_sec + 100000000`
and `0 ≤ tv_nsec < 1000000000`: the four closing assertions hold. -/
theorem C23_unpackTime_assertions_hold (now : Timeval) (isAbsolute : Bool) (time : Int)
    (htime : 0 < time) (hjlong : time < 2 ^ 63)
    (hsec : 0 ≤ now.tv_sec) (hsecmax : now.tv_sec + 100000000 < 2 ^ 63)
    (husec0 : 0 ≤ now.tv_usec) (husec1 : now.tv_usec < 1000000) :
    (0 ≤ (unpackTime now isAbsolute time).tv_sec ∧
      (unpackTime now isAbsolute time).tv_sec ≤ now.tv_sec + 100000000 ∧
      0 ≤ (unpackTime now isAbsolute time).tv_nsec ∧
      (unpackTime now isAbsolute time).tv_nsec < 1000000000) ∧
    unpackTime_asserts now (unpackTime now isAbsolute time) = true := by
  norm_num at hjlong hsecmax
  have hmax : wrap64 (now.tv_sec + 100000000) = now.tv_sec + 100000000 :=
    wrap64_of_range _ (by norm_num; omega) (by norm_num; omega)
  have hgoal : 0 ≤ (unpackTime now isAbsolute time).tv_sec ∧
      (unpackTime now isAbsolute time).tv_sec ≤ now.tv_sec + 100000000 ∧
      0 ≤ (unpackTime now isAbsolute time).tv_nsec ∧
      (unpackTime now isAbsolute time).tv_nsec < 1000000000 := by
    cases isAbsolute with
    | true =>
      have hq : Int.tdiv time 1000 = time / 1000 :=
        Int.tdiv_eq_ediv (le_of_lt htime) (by norm_num)
      have hr : Int.tmod time 1000 = time % 1000 :=
        Int.tmod_eq_emod (le_of_lt htime) (by norm_num)
      have hn : wrap64 (time % 1000 * 1000000) = time % 1000 * 1000000 :=
        wrap64_of_range _ (by norm_num; omega) (by norm_num; omega)
      simp only [unpackTime, if_true, MAX_SECS, NANOSECS_PER_MILLISEC, hmax, hq, hr, hn]
      refine ⟨?_, ?_, by omega, by omega⟩
      · split <;> omega
      · split <;> omega
    | false =>
      have hq : Int.tdiv time 1000000000 = time / 1000000000 :=
        Int.tdiv_eq_ediv (le_of_lt htime) (by norm_num)
      have hr : Int.tmod time 1000000000 = time % 1000000000 :=
        Int.tmod_eq_emod (le_of_lt htime) (by norm_num)
      have hu : wrap64 (now.tv_usec * 1000) = now.tv_usec * 1000 :=
        wrap64_of_range _ (by norm_num; omega) (by norm_num; omega)
      have hn : wrap64 (time % 1000000000 + now.tv_usec * 1000)
          = time % 1000000000 + now.tv_usec * 1000 :=
        wrap64_of_range _ (by norm_num; omega) (by norm_num; omega)
      simp only [unpackTime, Bool.false_eq_true, if_false, MAX_SECS, NANOSECS_PER_SEC, hmax,
        hq, hr, hu, hn]
      by_cases hbig : time / 1000000000 ≥ 100000000
      · simp only [hbig, if_true]
        omega
      · have hs : wrap64 (now.tv_sec + time / 1000000000) = now.tv_sec + time / 1000000000 :=
          wrap64_of_range _ (by norm_num; omega) (by norm_num; omega)
        simp only [hbig, if_false, hs]
        by_cases hcarry : time % 1000000000 + now.tv_usec * 1000 ≥ 1000000000
        · have h1 : wrap64 (now.tv_sec + time / 1000000000 + 1)
              = now.tv_sec + time / 1000000000 + 1 :=
            wrap64_of_range _ (by norm_num; omega) (by norm_num; omega)
          have h2 : wrap64 (time % 1000000000 + now.tv_usec * 1000 - 1000000000)
              = time % 1000000000 + now.tv_usec * 1000 - 1000000000 :=
            wrap64_of_range _ (by norm_num; omega) (by norm_num; omega)
          simp only [hcarry, if_true, h1, h2]
          omega
        · simp only [hcarry, if_false]
          omega
  refine ⟨hgoal, ?_⟩
  obtain ⟨g1, g2, g3, g4⟩ := hgoal
  simp [unpackTime_asserts, MAX_SECS, hmax, g1, g2, g3, g4, NANOSECS_PER_SEC]

/-- Claim C23 at a concrete input: a relative wait of 2.5 s at clock reading
1700000000 s + 900000 us. -/
theorem C23_unpackTime_assertions_witness :
    (0 ≤ (unpackTime ⟨1700000000, 900000⟩ false 2500000000).tv_sec ∧
      (unpackTime ⟨1700000000, 900000⟩ false 2500000000).tv_sec
        ≤ (⟨1700000000, 900000⟩ : Timeval).tv_sec + 100000000 ∧
      0 ≤ (unpackTime ⟨1700000000, 900000⟩ false 2500000000).tv_nsec ∧
      (unpackTime ⟨1700000000, 900000⟩ false 2500000000).tv_nsec < 1000000000) ∧
    unpackTime_asserts ⟨1700000000, 900000⟩
      (unpackTime ⟨1700000000, 900000⟩ false 2500000000) = true :=
  C23_unpackTime_assertions_hold ⟨1700000000, 900000⟩ false 2500000000 (by decide)
    (by decide) (by decide) (by decide) (by decide) (by decide)

/-- Every `getTimeNanos()` call returns: the value handed back is the content of
`max_hrtime` after the call and is not below its content before. -/
theorem getTimeNanos_returns_stored (debug : Bool) (now : Int) (raised : Nat)
    (max_hrtime : Int) :
    ∃ r, getTimeNanos debug now raised max_hrtime = .ok (r, r) ∧ max_hrtime ≤ r := by
  unfold getTimeNanos
  by_cases h : now ≤ max_hrtime
  · exact ⟨max_hrtime, by simp [h], le_refl _⟩
  · have hlt : ¬ (max_hrtime + (raised : Int) < max_hrtime) := by omega
    by_cases hr : raised = 0
    · subst hr
      refine ⟨now, ?_, by omega⟩
      simp [h]
    · have hne : ¬ (max_hrtime + (raised : Int) = max_hrtime) := by omega
      have hne2 : ¬ (max_hrtime = max_hrtime + (raised : Int)) := by omega
      refine ⟨max_hrtime + raised, ?_, by omega⟩
      simp [h, hlt, hne, hne2]

/-- Every entry of a run of `getTimeNanos()` calls is at or above the initial maximum. -/
theorem getTimeNanos_run_ge (debug : Bool) (calls : List (Int × Nat)) :
    ∀ (max_hrtime : Int), ∀ p ∈ getTimeNanos_run debug calls max_hrtime,
      max_hrtime ≤ p.1 ∧ max_hrtime ≤ p.2 := by
  induction calls with
  | nil =>
    intro m p hp
    simp [getTimeNanos_run] at hp
  | cons c rest ih =>
    obtain ⟨now, raised⟩ := c
    intro m p hp
    obtain ⟨r, hr, hle⟩ := getTimeNanos_returns_stored debug now raised m
    simp only [getTimeNanos_run, hr, List.mem_cons] at hp
    rcases hp with rfl | hp
    · exact ⟨hle, hle⟩
    · have := ih r p hp
      exact ⟨by omega, by omega⟩

/-- Claim C24. With clock reading `now` and stored maximum `prev`: when `now ≤ prev` the
call returns `prev` and leaves the stored maximum as it is; otherwise it returns a value at
or above `prev` and the stored maximum afterwards is at or above `prev` (whether or not
another thread raised the maximum in between). Over any sequence of calls no call fails,
and of any two calls the later one returns at least what the earlier one returned and
leaves a stored maximum at least as large. -/
theorem C24_getTimeNanos_monotone (debug : Bool) (now : Int) (raised : Nat) (prev : Int)
    (calls : List (Int × Nat)) :
    (now ≤ prev → getTimeNanos debug now raised prev = .ok (prev, prev)) ∧
    (prev < now → ∃ ret stored,
      getTimeNanos debug now raised prev = .ok (ret, stored) ∧ prev ≤ ret ∧ prev ≤ stored) ∧
    (getTimeNanos_run debug calls prev).length = calls.length ∧
    List.Pairwise (fun a b : Int × Int => a.1 ≤ b.1 ∧ a.2 ≤ b.2)
      (getTimeNanos_run debug calls prev) := by
  refine ⟨?_, ?_, ?_, ?_⟩
  · intro h
    simp [getTimeNanos, h]
  · intro _
    obtain ⟨r, hr, hle⟩ := getTimeNanos_returns_stored debug now raised prev
    exact ⟨r, r, hr, hle, hle⟩
  · induction calls generalizing prev with
    | nil => rfl
    | cons c rest ih =>
      obtain ⟨n1, r1⟩ := c
      obtain ⟨r, hr, -⟩ := getTimeNanos_returns_stored debug n1 r1 prev
      simp [getTimeNanos_run, hr, ih r]
  · induction calls generalizing prev with
    | nil => exact List.Pairwise.nil
    | cons c rest ih =>
      obtain ⟨n1, r1⟩ := c
      obtain ⟨r, hr, -⟩ := getTimeNanos_returns_stored debug n1 r1 prev
      simp only [getTimeNanos_run, hr]
      refine List.Pairwise.cons ?_ (ih r)
      intro p hp
      exact getTimeNanos_run_ge debug rest r p hp

/-- With `FilterSpuriousWakeups` on, the timed wait loop is left only with a non-negative
counter or after a wait that reported a timeout. -/
theorem timedWaitLoop_exit_cause (cfg : Build) (abst : Timespec)
    (hf : cfg.FilterSpuriousWakeups = true) :
    ∀ (wakes : List Wake) (event : Int) (trace : List Ev) (e : Int) (ltrace : List Ev),
      timedWaitLoop cfg abst wakes event trace = .exited e ltrace →
      0 ≤ e ∨ ∃ w ∈ wakes, w.status.isTimeout = true := by
  intro wakes
  induction wakes with
  | nil =>
    intro event trace e ltrace h
    simp only [timedWaitLoop] at h
    split at h
    · cases h
    · injection h with h1 h2
      left
      omega
  | cons w rest ih =>
    intro event trace e ltrace h
    simp only [timedWaitLoop, hf] at h
    split at h
    · split at h
      · cases h
      · simp only [Bool.not_true, Bool.false_eq_true, if_false] at h
        split at h
        · rename_i hto
          right
          refine ⟨w, List.mem_cons_self _ _, ?_⟩
          obtain ⟨st, u⟩ := w
          cases st <;> simp_all [Status.isTimeout]
        · rcases ih _ _ _ _ h with h1 | ⟨w2, hw2, ht⟩
          · exact Or.inl h1
          · exact Or.inr ⟨w2, List.mem_cons_of_mem _ hw2, ht⟩
    · injection h with h1 h2
      left
      omega

/-- Claim C26, as stated, fails with `FilterSpuriousWakeups` off: the first return of
`cond_timedwait`, here with status 0 and `_Event` still -1, ends the wait and the park
returns `OS_TIMEOUT` after a single `cond_timedwait`. -/
theorem C26_filter_off_counterexample :
    PlatformEvent.park_millis ⟨false, false⟩ ⟨⟨100, 0⟩, false, [⟨.ok, false⟩, ⟨.ok, false⟩]⟩
        1000 ⟨0, 0⟩
      = .returned .OS_TIMEOUT ⟨0, 0⟩
          [.mutex_lock, .cond_timedwait (compute_abstime ⟨100, 0⟩ 1000), .mutex_unlock,
           .fence] := by
  decide

/-- Claim C26, amended. With `FilterSpuriousWakeups` on: a return of `cond_timedwait` with
status 0 or `EINTR` while `_Event` is still negative does not end the wait, the loop goes on
to another `cond_timedwait`; and whenever the loop is left, either `_Event` is non-negative
or one of the waits reported `ETIME` or `ETIMEDOUT`. -/
theorem C26_spurious_wakeups_filtered (cfg : Build) (abst : Timespec)
    (hf : cfg.FilterSpuriousWakeups = true) :
    (∀ (w : Wake) (rest : List Wake) (event : Int) (trace : List Ev),
      event < 0 → w.spurious →
      timedWaitLoop cfg abst (w :: rest) event trace
          = timedWaitLoop cfg abst rest event (trace ++ [.cond_timedwait abst]) ∧
        ((rest = [] ∧ timedWaitLoop cfg abst rest event (trace ++ [.cond_timedwait abst])
            = .waiting event (trace ++ [.cond_timedwait abst] ++ [.cond_timedwait abst])) ∨
          ∃ w2 rest2, rest = w2 :: rest2)) ∧
    (∀ (wakes : List Wake) (event : Int) (trace : List Ev) (e : Int) (ltrace : List Ev),
      timedWaitLoop cfg abst wakes event trace = .exited e ltrace →
      0 ≤ e ∨ ∃ w ∈ wakes, w.status.isTimeout = true) := by
  refine ⟨?_, timedWaitLoop_exit_cause cfg abst hf⟩
  intro w rest event trace hev hw
  obtain ⟨st, u⟩ := w
  obtain ⟨hst, hu⟩ := hw
  simp only at hst hu
  subst hu
  constructor
  · rcases hst with h | h <;> subst h <;> simp [timedWaitLoop, hev, hf, applyUnpark]
  · cases rest with
    | nil => exact Or.inl ⟨rfl, by simp [timedWaitLoop, hev]⟩
    | cons w2 rest2 => exact Or.inr ⟨w2, rest2, rfl⟩

/-- Claim C26, amended, at a concrete input: an `EINTR` return is followed by a second
wait. -/
theorem C26_spurious_wakeups_filtered_witness :
    timedWaitLoop ⟨true, true⟩ ⟨100, 0⟩ (⟨.EINTR, false⟩ :: []) (-1) [.mutex_lock]
        = timedWaitLoop ⟨true, true⟩ ⟨100, 0⟩ [] (-1)
            ([.mutex_lock] ++ [.cond_timedwait ⟨100, 0⟩]) ∧
      (([] : List Wake) = [] ∧
          timedWaitLoop ⟨true, true⟩ ⟨100, 0⟩ [] (-1)
              ([.mutex_lock] ++ [.cond_timedwait ⟨100, 0⟩])
            = .waiting (-1)
                ([.mutex_lock] ++ [.cond_timedwait ⟨100, 0⟩] ++ [.cond_timedwait ⟨100, 0⟩]) ∨
        ∃ w2 rest2, ([] : List Wake) = w2 :: rest2) :=
  (C26_spurious_wakeups_filtered ⟨true, true⟩ ⟨100, 0⟩ rfl).1 ⟨.EINTR, false⟩ [] (-1)
    [.mutex_lock] (by decide) (by decide)

/-- After an `unpark()` that returns, any number of further `unpark()` calls return and
leave the state as it is. -/
theorem unpark_repeat_of_signaled (n : Nat) (s : PlatformEvent) (h : s._Event = 1) :
    unpark_repeat n s = some s := by
  induction n with
  | zero => rfl
  | succ k ih =>
    obtain ⟨e, p⟩ := s
    simp only at h
    subst h
    simp only [unpark_repeat, PlatformEvent.unpark]
    simpa using ih

/-- Claim C28. Whenever an `unpark()` returns it leaves `_Event = 1`, and a second
`unpark()` then returns with an empty trace (no mutex operation, no signal) and the same
state. Wake-ups do not accumulate: on an event with nobody parked, after any number
`n ≥ 1` of consecutive `unpark()` calls the counter is 1; the first `park(millis)` returns
`OS_OK` with an empty trace and leaves the event idle, and the next one, with no unpark in
between, takes the mutex, waits at least once and returns `OS_TIMEOUT` when a wait reports a
timeout. -/
theorem C28_unpark_idempotent (cfg : Build) (s : PlatformEvent) :
    (∀ s1 trace, unpark s = .returned () s1 trace →
      s1._Event = 1 ∧ unpark s1 = .returned () s1 []) ∧
    (∀ n, 1 ≤ n → s._nParked = 0 →
      unpark_repeat n s = some { _Event := 1, _nParked := 0 } ∧
      (∀ env millis, park_millis cfg env millis { _Event := 1, _nParked := 0 }
          = .returned .OS_OK { _Event := 0, _nParked := 0 } []) ∧
      (∀ now millis (pre : List Wake) (t : Wake) (rest : List Wake),
        (∀ w ∈ pre, w.spurious) → t.status.isTimeout = true → t.unparked = false →
        ∃ k, 1 ≤ k ∧
          park_millis cfg { now := now, early := false, wakes := pre ++ t :: rest } millis
              { _Event := 0, _nParked := 0 }
            = .returned .OS_TIMEOUT { _Event := 0, _nParked := 0 }
                (([Ev.mutex_lock] ++
                    List.replicate k (.cond_timedwait (compute_abstime now millis)))
                  ++ [.mutex_unlock, .fence]))) := by
  obtain ⟨e, p⟩ := s
  constructor
  · intro s1 trace h
    have hs1 : s1 = { _Event := 1, _nParked := p } := by
      simp only [unpark] at h
      split_ifs at h <;> injection h with _ h2 _ <;> exact h2.symm
    subst hs1
    exact ⟨rfl, by simp [unpark]⟩
  · intro n hn hp
    simp only at hp
    subst hp
    refine ⟨?_, ?_, ?_⟩
    · obtain ⟨k, rfl⟩ : ∃ k, n = k + 1 := ⟨n - 1, by omega⟩
      have hfirst : ∃ trace, unpark { _Event := e, _nParked := 0 }
          = .returned () { _Event := 1, _nParked := 0 } trace := by
        by_cases he : 0 ≤ e
        · exact ⟨[], by simp [unpark, he]⟩
        · exact ⟨[.mutex_lock, .mutex_unlock], by simp [unpark, he]⟩
      obtain ⟨trace, ht⟩ := hfirst
      simp only [unpark_repeat, ht]
      exact unpark_repeat_of_signaled k _ rfl
    · intro env millis
      simp [park_millis]
    · intro now millis pre t rest hpre ht htu
      obtain ⟨k, hk, hloop⟩ := timedWaitLoop_until_timeout cfg (compute_abstime now millis)
        t rest ht htu pre [.mutex_lock] hpre
      exact ⟨k, hk, by simp [park_millis, applyUnpark, hloop]⟩

/-- Claim C29. For every scheduling-class range `rMin ≤ rMax` whose span does not overflow
the `int` arithmetic (every range of `pri_t` values qualifies) and all native priorities
`0 ≤ x ≤ y ≤ 127`, the scaled priority of `x` is at most that of `y`. -/
theorem C29_scale_monotone (rMin rMax x y : Int) (hle : rMin ≤ rMax)
    (hmin : -2 ^ 31 ≤ rMin) (hmax : rMax < 2 ^ 31) (hspan : 127 * (rMax - rMin) < 2 ^ 31)
    (hx0 : 0 ≤ x) (hxy : x ≤ y) (hy1 : y ≤ 127) :
    scale_to_lwp_priority rMin rMax x ≤ scale_to_lwp_priority rMin rMax y := by
  have hd0 : 0 ≤ rMax - rMin := by omega
  have exact : ∀ z : Int, 0 ≤ z → z ≤ 127 → z ≠ 127 →
      scale_to_lwp_priority rMin rMax z = z * (rMax - rMin) / 128 + rMin ∧
        z * (rMax - rMin) / 128 ≤ rMax - rMin := by
    intro z hz0 hz1 hz
    have hp0 : 0 ≤ z * (rMax - rMin) := mul_nonneg hz0 hd0
    have hp1 : z * (rMax - rMin) ≤ 127 * (rMax - rMin) := mul_le_mul_of_nonneg_right hz1 hd0
    have hq0 : 0 ≤ z * (rMax - rMin) / 128 := Int.ediv_nonneg hp0 (by norm_num)
    have hq1 : z * (rMax - rMin) / 128 ≤ rMax - rMin := by
      have : z * (rMax - rMin) / 128 ≤ 127 * (rMax - rMin) / 128 :=
        Int.ediv_le_ediv (by norm_num) hp1
      omega
    exact ⟨scale_to_lwp_priority_exact rMin rMax z hz hz0 hle hmin
      (by norm_num at hspan ⊢; omega) (by omega) (by norm_num at hmax ⊢; omega), hq1⟩
  by_cases hy : y = 127
  · subst hy
    by_cases hx : x = 127
    · subst hx
      exact le_refl _
    · obtain ⟨hex, hq⟩ := exact x hx0 hxy hx
      rw [hex]
      simp only [scale_to_lwp_priority, if_true]
      omega
  · have hx : x ≠ 127 := by omega
    obtain ⟨hex, -⟩ := exact x hx0 (by omega) hx
    obtain ⟨hey, -⟩ := exact y (by omega) hy1 hy
    rw [hex, hey]
    have : x * (rMax - rMin) / 128 ≤ y * (rMax - rMin) / 128 :=
      Int.ediv_le_ediv (by norm_num) (mul_le_mul_of_nonneg_right hxy hd0)
    omega

/-- Claim C29 at a concrete input: priorities 32 and 96 in the range -60..60. -/
theorem C29_scale_monotone_witness :
    scale_to_lwp_priority (-60) 60 32 ≤ scale_to_lwp_priority (-60) 60 96 :=
  C29_scale_monotone (-60) 60 32 96 (by decide) (by decide) (by decide) (by decide)
    (by decide) (by decide) (by decide)

/-- Claim C30. For every `millis` that fits a `jlong` and every clock reading with
`0 ≤ tv_usec < 1000000` and `tv_sec + 50000001` inside the range of `time_t`,
`compute_abstime` yields a deadline with `0 ≤ tv_nsec < 1000000000` that lies exactly `m`
milliseconds after the reading, where `m` is 0 for negative `millis`, `millis` when
`millis / 1000 ≤ 50000000`, and `50000000 * 1000 + millis % 1000` otherwise; so the deadline
is less than 50000001 seconds after the reading. -/
theorem C30_compute_abstime_deadline (now : Timeval) (millis : Int)
    (hlo : -2 ^ 63 ≤ millis) (hhi : millis < 2 ^ 63)
    (hsec0 : -2 ^ 63 ≤ now.tv_sec) (hsec1 : now.tv_sec + 50000001 < 2 ^ 63)
    (husec0 : 0 ≤ now.tv_usec) (husec1 : now.tv_usec < 1000000) :
    0 ≤ (compute_abstime now millis).tv_nsec ∧
    (compute_abstime now millis).tv_nsec < 1000000000 ∧
    (compute_abstime now millis).tv_sec * 1000000000 + (compute_abstime now millis).tv_nsec
      = now.tv_sec * 1000000000 + now.tv_usec * 1000 +
          (if millis < 0 then 0
           else if millis / 1000 ≤ 50000000 then millis
           else 50000000 * 1000 + millis % 1000) * 1000000 ∧
    (compute_abstime now millis).tv_sec * 1000000000 + (compute_abstime now millis).tv_nsec
      < now.tv_sec * 1000000000 + now.tv_usec * 1000 + 50000001 * 1000000000 := by
  norm_num at hlo hhi hsec0 hsec1
  have main : ∀ ms : Int, 0 ≤ ms → ms < 9223372036854775808 →
      (if millis < 0 then 0 else millis) = ms →
      0 ≤ (compute_abstime now millis).tv_nsec ∧
      (compute_abstime now millis).tv_nsec < 1000000000 ∧
      (compute_abstime now millis).tv_sec * 1000000000 + (compute_abstime now millis).tv_nsec
        = now.tv_sec * 1000000000 + now.tv_usec * 1000 +
            (if ms / 1000 ≤ 50000000 then ms else 50000000 * 1000 + ms % 1000) * 1000000 := by
    intro ms hms0 hms1 hms
    have hq : Int.tdiv ms 1000 = ms / 1000 := Int.tdiv_eq_ediv hms0 (by norm_num)
    have hr : Int.tmod ms 1000 = ms % 1000 := Int.tmod_eq_emod hms0 (by norm_num)
    have hm : wrap64 (ms % 1000 * 1000) = ms % 1000 * 1000 :=
      wrap64_of_range _ (by norm_num; omega) (by norm_num; omega)
    have hu : wrap64 (now.tv_usec + ms % 1000 * 1000) = now.tv_usec + ms % 1000 * 1000 :=
      wrap64_of_range _ (by norm_num; omega) (by norm_num; omega)
    simp only [compute_abstime, hms, hq, hr, hm, hu]
    by_cases hbig : ms / 1000 > 50000000
    · have hnb : ¬ ms / 1000 ≤ 50000000 := by omega
      have hs : wrap64 (now.tv_sec + 50000000) = now.tv_sec + 50000000 :=
        wrap64_of_range _ (by norm_num; omega) (by norm_num; omega)
      simp only [hbig, if_true, hnb, if_false, hs]
      by_cases hc : now.tv_usec + ms % 1000 * 1000 ≥ 1000000
      · have h1 : wrap64 (now.tv_sec + 50000000 + 1) = now.tv_sec + 50000000 + 1 :=
          wrap64_of_range _ (by norm_num; omega) (by norm_num; omega)
        have h2 : wrap64 (now.tv_usec + ms % 1000 * 1000 - 1000000)
            = now.tv_usec + ms % 1000 * 1000 - 1000000 :=
          wrap64_of_range _ (by norm_num; omega) (by norm_num; omega)
        have h3 : wrap64 ((now.tv_usec + ms % 1000 * 1000 - 1000000) * 1000)
            = (now.tv_usec + ms % 1000 * 1000 - 1000000) * 1000 :=
          wrap64_of_range _ (by norm_num; omega) (by norm_num; omega)
        simp only [hc, if_true, h1, h2, h3]
        omega
      · have h3 : wrap64 ((now.tv_usec + ms % 1000 * 1000) * 1000)
            = (now.tv_usec + ms % 1000 * 1000) * 1000 :=
          wrap64_of_range _ (by norm_num; omega) (by norm_num; omega)
        simp only [hc, if_false, h3]
        omega
    · have hnb : ms / 1000 ≤ 50000000 := by omega
      have hs : wrap64 (now.tv_sec + ms / 1000) = now.tv_sec + ms / 1000 :=
        wrap64_of_range _ (by norm_num; omega) (by norm_num; omega)
      simp only [hbig, if_false, hnb, if_true, hs]
      by_cases hc : now.tv_usec + ms % 1000 * 1000 ≥ 1000000
      · have h1 : wrap64 (now.tv_sec + ms / 1000 + 1) = now.tv_sec + ms / 1000 + 1 :=
          wrap64_of_range _ (by norm_num; omega) (by norm_num; omega)
        have h2 : wrap64 (now.tv_usec + ms % 1000 * 1000 - 1000000)
            = now.tv_usec + ms % 1000 * 1000 - 1000000 :=
          wrap64_of_range _ (by norm_num; omega) (by norm_num; omega)
        have h3 : wrap64 ((now.tv_usec + ms % 1000 * 1000 - 1000000) * 1000)
            = (now.tv_usec + ms % 1000 * 1000 - 1000000) * 1000 :=
          wrap64_of_range _ (by norm_num; omega) (by norm_num; omega)
        simp only [hc, if_true, h1, h2, h3]
        omega
      · have h3 : wrap64 ((now.tv_usec + ms % 1000 * 1000) * 1000)
            = (now.tv_usec + ms % 1000 * 1000) * 1000 :=
          wrap64_of_range _ (by norm_num; omega) (by norm_num; omega)
        simp only [hc, if_false, h3]
        omega
  by_cases hneg : millis < 0
  · obtain ⟨g1, g2, g3⟩ := main 0 (le_refl _) (by norm_num) (by simp [hneg])
    refine ⟨g1, g2, ?_, ?_⟩
    · rw [g3]
      simp [hneg]
    · rw [g3]
      norm_num
  · obtain ⟨g1, g2, g3⟩ := main millis (by omega) hhi (by simp [hneg])
    refine ⟨g1, g2, ?_, ?_⟩
    · rw [g3]
      simp [hneg]
    · rw [g3]
      split <;> omega

/-- Claim C30 at a concrete input: 1500 ms after 100 s + 999999 us. -/
theorem C30_compute_abstime_deadline_witness :
    0 ≤ (compute_abstime ⟨100, 999999⟩ 1500).tv_nsec ∧
    (compute_abstime ⟨100, 999999⟩ 1500).tv_nsec < 1000000000 ∧
    (compute_abstime ⟨100, 999999⟩ 1500).tv_sec * 1000000000
        + (compute_abstime ⟨100, 999999⟩ 1500).tv_nsec
      = (⟨100, 999999⟩ : Timeval).tv_sec * 1000000000
          + (⟨100, 999999⟩ : Timeval).tv_usec * 1000 +
          (if (1500 : Int) < 0 then 0
           else if (1500 : Int) / 1000 ≤ 50000000 then 1500
           else 50000000 * 1000 + 1500 % 1000) * 1000000 ∧
    (compute_abstime ⟨100, 999999⟩ 1500).tv_sec * 1000000000
        + (compute_abstime ⟨100, 999999⟩ 1500).tv_nsec
      < (⟨100, 999999⟩ : Timeval).tv_sec * 1000000000
          + (⟨100, 999999⟩ : Timeval).tv_usec * 1000 + 50000001 * 1000000000 :=
  C30_compute_abstime_deadline ⟨100, 999999⟩ 1500 (by decide) (by decide) (by decide)
    (by decide) (by decide) (by decide)

/-! ## Theorems: `os::create_thread` -/

/-- Claim C22. For every `os::create_thread` call (whose `OSThread` allocation succeeds):
the probe reservation is made exactly when `_os_thread_count` exceeds `_os_thread_limit`,
and without it no system call is made on the address space; when the probe reservation
fails the call returns false, `thr_create` is not called and `_os_thread_count` is
unchanged; when it succeeds the dummy block is released and `thr_create` is called, the
call then returning true exactly when `thr_create` reports success. -/
theorem C22_create_thread_probe (env : CreateEnv) (prior : Option OSThreadObj)
    (thr_type : ThreadType) (req_stack_size : Nat) (st : ThreadsState) (o : OSThreadObj)
    (hfresh : env.fresh = some o) :
    (CreateEv.reserve_memory VirtualMemoryBangSize
        ∈ (create_thread env prior thr_type req_stack_size st).trace
      ↔ st._os_thread_count > st._os_thread_limit) ∧
    (¬ st._os_thread_count > st._os_thread_limit →
      (create_thread env prior thr_type req_stack_size st).st.os = st.os) ∧
    (st._os_thread_count > st._os_thread_limit →
      (pd_reserve_memory st.os env.probe VirtualMemoryBangSize false).1 = 0 →
      (create_thread env prior thr_type req_stack_size st).ret = false ∧
      (∀ stack_size flags, CreateEv.thr_create stack_size flags
        ∉ (create_thread env prior thr_type req_stack_size st).trace) ∧
      (create_thread env prior thr_type req_stack_size st).st._os_thread_count
        = st._os_thread_count) ∧
    (st._os_thread_count > st._os_thread_limit →
      (pd_reserve_memory st.os env.probe VirtualMemoryBangSize false).1 ≠ 0 →
      CreateEv.release_memory
          (pd_reserve_memory st.os env.probe VirtualMemoryBangSize false).1
          VirtualMemoryBangSize
        ∈ (create_thread env prior thr_type req_stack_size st).trace ∧
      CreateEv.thr_create (env.get_initial_stack_size thr_type req_stack_size)
          { THR_DETACHED := env.UseDetachedThreads, THR_SUSPENDED := true }
        ∈ (create_thread env prior thr_type req_stack_size st).trace ∧
      ((create_thread env prior thr_type req_stack_size st).ret = true
        ↔ env.thr_create_status = 0)) := by
  by_cases hc : st._os_thread_count > st._os_thread_limit
  · by_cases hm : (pd_reserve_memory st.os env.probe VirtualMemoryBangSize false).1 = 0
    · refine ⟨?_, fun h => absurd hc h, ?_, fun _ h => absurd hm h⟩
      · simp [create_thread, hfresh, hc, hm]
      · intro _ _
        simp [create_thread, hfresh, hc, hm]
    · refine ⟨?_, fun h => absurd hc h, fun _ h => absurd h hm, ?_⟩
      · by_cases hs : env.thr_create_status = 0 <;> simp [create_thread, hfresh, hc, hm, hs]
      · intro _ _
        by_cases hs : env.thr_create_status = 0 <;> simp [create_thread, hfresh, hc, hm, hs]
  · refine ⟨?_, ?_, fun h => absurd h hc, fun h => absurd h hc⟩
    · by_cases hs : env.thr_create_status = 0 <;> simp [create_thread, hfresh, hc, hs]
    · intro _
      by_cases hs : env.thr_create_status = 0 <;> simp [create_thread, hfresh, hc, hs]

/-- Claim C22 at a concrete input: 11 threads against a ceiling of 10, and a probe the
kernel refuses with `ENOMEM`. -/
theorem C22_create_thread_probe_witness :
    (create_thread
        { fresh := some ⟨⟨0, 0, 0⟩, none, false⟩, get_initial_stack_size := fun _ n => n,
          UseDetachedThreads := true, probe := .MAP_FAILED 12, thr_create_status := 0,
          tid := 9 }
        none .java_thread 1048576 ⟨11, 10, ⟨4096, fun _ => none, 0, []⟩⟩).ret = false ∧
      (∀ stack_size flags, CreateEv.thr_create stack_size flags
        ∉ (create_thread
            { fresh := some ⟨⟨0, 0, 0⟩, none, false⟩, get_initial_stack_size := fun _ n => n,
              UseDetachedThreads := true, probe := .MAP_FAILED 12, thr_create_status := 0,
              tid := 9 }
            none .java_thread 1048576 ⟨11, 10, ⟨4096, fun _ => none, 0, []⟩⟩).trace) ∧
      (create_thread
          { fresh := some ⟨⟨0, 0, 0⟩, none, false⟩, get_initial_stack_size := fun _ n => n,
            UseDetachedThreads := true, probe := .MAP_FAILED 12, thr_create_status := 0,
            tid := 9 }
          none .java_thread 1048576
          ⟨11, 10, ⟨4096, fun _ => none, 0, []⟩⟩).st._os_thread_count = 11 :=
  (C22_create_thread_probe
    { fresh := some ⟨⟨0, 0, 0⟩, none, false⟩, get_initial_stack_size := fun _ n => n,
      UseDetachedThreads := true, probe := .MAP_FAILED 12, thr_create_status := 0, tid := 9 }
    none .java_thread 1048576 ⟨11, 10, ⟨4096, fun _ => none, 0, []⟩⟩
    ⟨⟨0, 0, 0⟩, none, false⟩ rfl).2.2.1 (by decide) rfl

/-- Claim C27. For every `os::create_thread` call that returns true: `thr_create` was called
with `THR_SUSPENDED`; the `OSThread` is in state `INITIALIZED`, the states set during the
call being `ALLOCATED` then `INITIALIZED` (never `RUNNABLE`); its thread id is the one
`thr_create` returned, its lwp id is -1, its native priority is `NormPriority`, it is marked
`vm_created`; and `_os_thread_count` is the old count plus one (as a `jint`; exactly one
more unless the counter was at its largest value). For every call that returns false
`_os_thread_count` is unchanged. -/
theorem C27_create_thread_result (env : CreateEnv) (prior : Option OSThreadObj)
    (thr_type : ThreadType) (req_stack_size : Nat) (st : ThreadsState) :
    ((create_thread env prior thr_type req_stack_size st).ret = true →
      CreateEv.thr_create (env.get_initial_stack_size thr_type req_stack_size)
          { THR_DETACHED := env.UseDetachedThreads, THR_SUSPENDED := true }
        ∈ (create_thread env prior thr_type req_stack_size st).trace ∧
      (create_thread env prior thr_type req_stack_size st).osthread
        = some { ids := { thread_id := env.tid, lwp_id := -1,
                          native_priority := NormPriority },
                 state := some .INITIALIZED, vm_created := true } ∧
      (create_thread env prior thr_type req_stack_size st).trace.filterMap CreateEv.state?
        = [.ALLOCATED, .INITIALIZED] ∧
      (create_thread env prior thr_type req_stack_size st).st._os_thread_count
        = wrap32 (st._os_thread_count + 1) ∧
      (-2 ^ 31 ≤ st._os_thread_count → st._os_thread_count + 1 < 2 ^ 31 →
        (create_thread env prior thr_type req_stack_size st).st._os_thread_count
          = st._os_thread_count + 1)) ∧
    ((create_thread env prior thr_type req_stack_size st).ret = false →
      (create_thread env prior thr_type req_stack_size st).st._os_thread_count
        = st._os_thread_count) := by
  cases hf : env.fresh with
  | none => simp [create_thread, hf]
  | some o =>
    by_cases hc : st._os_thread_count > st._os_thread_limit
    · by_cases hm : (pd_reserve_memory st.os env.probe VirtualMemoryBangSize false).1 = 0
      · simp [create_thread, hf, hc, hm]
      · by_cases hs : env.thr_create_status = 0
        · simp only [create_thread, hf, hc, hm, hs]
          simp [CreateEv.state?]
          intro h1 h2
          exact wrap32_of_range _ (by omega) h2
        · simp [create_thread, hf, hc, hm, hs]
    · by_cases hs : env.thr_create_status = 0
      · simp only [create_thread, hf, hc, hs]
        simp [CreateEv.state?]
        intro h1 h2
        exact wrap32_of_range _ (by omega) h2
      · simp [create_thread, hf, hc, hs]

/-! ## Theorems: the states of an `os::PlatformEvent` -/

/-- Every step taken from a state that satisfies the invariant leads to one that does. -/
theorem EventSys.step_keeps_invariant (cfg : Build) (s s1 : EventSys) (e : EventStep) (h : s.Inv)
    (hs : s.step cfg e = .ok s1) : s1.Inv := by
  obtain ⟨⟨ev, np⟩, pc⟩ := s
  cases e with
  | park_enter timed =>
    cases pc with
    | running =>
      obtain ⟨hev, hnp⟩ := h
      simp only at hev hnp
      subst hnp
      rcases hev with rfl | rfl
      · simp [EventSys.step] at hs
        subst hs
        simp [EventSys.Inv]
      · simp [EventSys.step] at hs
        subst hs
        simp [EventSys.Inv]
    | decremented t =>
      simp [EventSys.step] at hs
      subst hs
      exact h
    | waiting t =>
      simp [EventSys.step] at hs
      subst hs
      exact h
  | park_lock =>
    cases pc with
    | running =>
      simp [EventSys.step] at hs
      subst hs
      exact h
    | decremented t =>
      obtain ⟨hev, hnp⟩ := h
      simp only at hev hnp
      subst hnp
      rcases hev with rfl | rfl
      · simp [EventSys.step, EventSys.test] at hs
        subst hs
        simp [EventSys.Inv]
      · simp [EventSys.step, EventSys.test, EventSys.leave] at hs
        subst hs
        simp [EventSys.Inv]
    | waiting t =>
      simp [EventSys.step] at hs
      subst hs
      exact h
  | wait_return status =>
    cases pc with
    | running =>
      simp [EventSys.step] at hs
      subst hs
      exact h
    | decremented t =>
      simp [EventSys.step] at hs
      subst hs
      exact h
    | waiting t =>
      obtain ⟨hev, hnp⟩ := h
      simp only at hev hnp
      subst hnp
      cases t with
      | false =>
        simp only [EventSys.step] at hs
        split_ifs at hs <;> injection hs with hs <;> subst hs <;>
          rcases hev with rfl | rfl <;> simp [EventSys.test, EventSys.leave, EventSys.Inv]
      | true =>
        simp only [EventSys.step] at hs
        split_ifs at hs <;> injection hs with hs <;> subst hs
        · simp [EventSys.leave, EventSys.Inv]
        · simp [EventSys.leave, EventSys.Inv]
        · rcases hev with rfl | rfl
          · simp [EventSys.test, EventSys.Inv]
          · simp [EventSys.test, EventSys.leave, EventSys.Inv]
  | unpark_xchg =>
    simp only [EventSys.step] at hs
    injection hs with hs
    subst hs
    cases pc <;> simp_all [EventSys.Inv]
  | unpark_check =>
    simp only [EventSys.step] at hs
    split_ifs at hs
    injection hs with hs
    subst hs
    exact h

/-- From a state that satisfies the invariant no `guarantee` fails. -/
theorem EventSys.no_guarantee_failure (cfg : Build) (s : EventSys) (e : EventStep)
    (msg : String) (h : s.Inv) (hs : s.step cfg e = .error msg) : msg ≠ "invariant" := by
  obtain ⟨⟨ev, np⟩, pc⟩ := s
  cases e with
  | park_enter timed =>
    cases pc with
    | running =>
      obtain ⟨hev, hnp⟩ := h
      simp only at hev hnp
      subst hnp
      rcases hev with rfl | rfl <;> simp [EventSys.step] at hs
    | decremented t => simp [EventSys.step] at hs
    | waiting t => simp [EventSys.step] at hs
  | park_lock =>
    cases pc with
    | running => simp [EventSys.step] at hs
    | decremented t =>
      obtain ⟨-, hnp⟩ := h
      simp only at hnp
      subst hnp
      simp [EventSys.step] at hs
    | waiting t => simp [EventSys.step] at hs
  | wait_return status =>
    cases pc with
    | running => simp [EventSys.step] at hs
    | decremented t => simp [EventSys.step] at hs
    | waiting t =>
      cases t with
      | false =>
        simp only [EventSys.step] at hs
        split_ifs at hs <;> injection hs with hs <;> subst hs <;> decide
      | true =>
        simp only [EventSys.step] at hs
        split_ifs at hs
        injection hs with hs
        subst hs
        decide
  | unpark_xchg => simp [EventSys.step] at hs
  | unpark_check =>
    have hnp : np = 0 ∨ np = 1 := by
      cases pc <;> simp_all [EventSys.Inv]
    rcases hnp with rfl | rfl <;> simp [EventSys.step] at hs

/-- The changes of `_Event` a step makes from a state that satisfies the invariant: a step
of `park` leaves it, or takes it from 1 to 0, from 0 to -1 or from -1 to 0; the exchange of
`unpark` sets it to 1; the locked check of `unpark` leaves it. -/
theorem EventSys.step_transition (cfg : Build) (s s1 : EventSys) (e : EventStep) (h : s.Inv)
    (hs : s.step cfg e = .ok s1) :
    (e.isPark = true →
      s1.event._Event = s.event._Event ∨
      (s.event._Event = 1 ∧ s1.event._Event = 0) ∨
      (s.event._Event = 0 ∧ s1.event._Event = -1) ∨
      (s.event._Event = -1 ∧ s1.event._Event = 0)) ∧
    (e = .unpark_xchg → s1.event._Event = 1) ∧
    (e = .unpark_check → s1 = s) := by
  have h1 := EventSys.step_keeps_invariant cfg s s1 e h hs
  obtain ⟨⟨ev, np⟩, pc⟩ := s
  obtain ⟨⟨ev1, np1⟩, pc1⟩ := s1
  have hev : ev = -1 ∨ ev = 0 ∨ ev = 1 := by
    cases pc <;> simp only [EventSys.Inv] at h <;> omega
  have hev1 : ev1 = -1 ∨ ev1 = 0 ∨ ev1 = 1 := by
    cases pc1 <;> simp only [EventSys.Inv] at h1 <;> omega
  refine ⟨?_, ?_, ?_⟩
  · intro _
    simp only
    cases e with
    | park_enter timed =>
      cases pc with
      | running =>
        simp only [EventSys.step] at hs
        split_ifs at hs <;> injection hs with hs <;> injection hs with hs1 hs2 <;>
          injection hs1 with hs3 hs4 <;> omega
      | decremented t =>
        simp [EventSys.step] at hs
        omega
      | waiting t =>
        simp [EventSys.step] at hs
        omega
    | park_lock =>
      cases pc with
      | running =>
        simp [EventSys.step] at hs
        omega
      | decremented t =>
        simp only [EventSys.step, EventSys.test, EventSys.leave] at hs
        split_ifs at hs <;> injection hs with hs <;> injection hs with hs1 hs2 <;>
          injection hs1 with hs3 hs4 <;> omega
      | waiting t =>
        simp [EventSys.step] at hs
        omega
    | wait_return status =>
      cases pc with
      | running =>
        simp [EventSys.step] at hs
        omega
      | decremented t =>
        simp [EventSys.step] at hs
        omega
      | waiting t =>
        cases t <;> simp only [EventSys.step, EventSys.test, EventSys.leave] at hs <;>
          split_ifs at hs <;> injection hs with hs <;> injection hs with hs1 hs2 <;>
          injection hs1 with hs3 hs4 <;> omega
    | unpark_xchg => simp [EventStep.isPark] at *
    | unpark_check => simp [EventStep.isPark] at *
  · intro he
    subst he
    simp only [EventSys.step] at hs
    injection hs with hs
    injection hs with hs1 hs2
    injection hs1 with hs3 hs4
    exact hs3.symm
  · intro he
    subst he
    simp only [EventSys.step] at hs
    split_ifs at hs
    injection hs with hs
    exact hs.symm

/-- The invariant holds after every run from a state where it holds, and no run ends in a
failed `guarantee`. -/
theorem EventSys.run_keeps_invariant (cfg : Build) (steps : List EventStep) :
    ∀ s : EventSys, s.Inv →
      (∀ s1, EventSys.run cfg steps s = .ok s1 → s1.Inv) ∧
      (∀ msg, EventSys.run cfg steps s = .error msg → msg ≠ "invariant") := by
  induction steps with
  | nil =>
    intro s h
    refine ⟨fun s1 hs => ?_, fun msg hs => ?_⟩
    · simp only [EventSys.run] at hs
      injection hs with hs
      subst hs
      exact h
    · simp [EventSys.run] at hs
  | cons e rest ih =>
    intro s h
    cases hstep : s.step cfg e with
    | error m =>
      refine ⟨fun s1 hs => ?_, fun msg hs => ?_⟩
      · simp [EventSys.run, hstep] at hs
      · simp only [EventSys.run, hstep] at hs
        injection hs with hs
        subst hs
        exact EventSys.no_guarantee_failure cfg s e m h hstep
    | ok s2 =>
      have h2 := EventSys.step_keeps_invariant cfg s s2 e h hstep
      simpa [EventSys.run, hstep] using ih s2 h2

/-- In every state reachable from a fresh event, `_nParked` is 0 or 1. -/
theorem EventSys.reachable_nParked (cfg : Build) (steps : List EventStep) (s : EventSys)
    (hs : EventSys.run cfg steps EventSys.init = .ok s) :
    s.event._nParked = 0 ∨ s.event._nParked = 1 := by
  have hinit : EventSys.init.Inv := by
    simp [EventSys.init, EventSys.Inv]
  have hinv := (EventSys.run_keeps_invariant cfg steps EventSys.init hinit).1 s hs
  obtain ⟨⟨ev, np⟩, pc⟩ := s
  cases pc <;> simp only [EventSys.Inv] at hinv ⊢ <;> omega

/-- Claim C25. For an event with a single parking thread, in every state reachable from
`_Event = 0` by any sequence of atomic steps of `park()`, `park(millis)` and `unpark()`:
`_Event` is -1, 0 or 1; outside `park` it is 0 or 1, so `park` is never entered with -1;
no run ends in a failed `guarantee`; and every further step changes `_Event` only from 1 to
0, from 0 to -1 or from -1 to 0 when it is a step of `park`, and to 1 when it is the
exchange of `unpark`. -/
theorem C25_event_states_and_transitions (cfg : Build) (steps : List EventStep) :
    (∀ s, EventSys.run cfg steps EventSys.init = .ok s →
      (s.event._Event = -1 ∨ s.event._Event = 0 ∨ s.event._Event = 1) ∧
      (s.pc = .running → 0 ≤ s.event._Event) ∧
      (∀ e s1, s.step cfg e = .ok s1 →
        (e.isPark = true →
          s1.event._Event = s.event._Event ∨
          (s.event._Event = 1 ∧ s1.event._Event = 0) ∨
          (s.event._Event = 0 ∧ s1.event._Event = -1) ∨
          (s.event._Event = -1 ∧ s1.event._Event = 0)) ∧
        (e = .unpark_xchg → s1.event._Event = 1) ∧
        (e = .unpark_check → s1 = s)) ∧
      (∀ e msg, s.step cfg e = .error msg → msg ≠ "invariant")) ∧
    (∀ msg, EventSys.run cfg steps EventSys.init = .error msg → msg ≠ "invariant") := by
  have hinit : EventSys.init.Inv := by
    simp [EventSys.init, EventSys.Inv]
  obtain ⟨hok, herr⟩ := EventSys.run_keeps_invariant cfg steps EventSys.init hinit
  refine ⟨fun s hs => ?_, herr⟩
  have hinv := hok s hs
  refine ⟨?_, ?_, fun e s1 h1 => EventSys.step_transition cfg s s1 e hinv h1,
    fun e msg h1 => EventSys.no_guarantee_failure cfg s e msg hinv h1⟩
  · obtain ⟨⟨ev, np⟩, pc⟩ := s
    cases pc <;> simp only [EventSys.Inv] at hinv ⊢ <;> omega
  · intro hpc
    obtain ⟨⟨ev, np⟩, pc⟩ := s
    simp only at hpc
    subst hpc
    simp only [EventSys.Inv] at hinv ⊢
    omega

end Solaris
